import Mathlib

/-! Command gate of `src/structures/command.js`

A shallow embedding of the `Command` base class: the dynamic checks of
`validateInfo`, the constructor, the ordered guards of `execute`, the cooldown
cache operations and the usage text of `getUsageEmbed`.

Conventions of the embedding.

* JavaScript numbers are rationals; `Date.now()` is an integer number of
  milliseconds passed in as an argument, and the product with `0.001` is the
  exact rational product.
* `client.messageCooldownCache` (a `Map`) is passed in and returned explicitly.
* What the file imports from elsewhere (`timeformat`, the `permissions` table,
  `EMOJIS`, `EMBED_COLORS`, `PREFIX`) is a field of `Env`.
* The permission queries of the chat library are fields of the channel.
-/

namespace DiscordBot

/-! ## JavaScript values -/

/-- A JavaScript value as far as the source inspects one dynamically; `α` is
what an object carries. Arrays are objects. -/
inductive JsValue (α : Type) where
  | undefined : JsValue α
  | null : JsValue α
  | boolean (b : Bool) : JsValue α
  | number (q : ℚ) : JsValue α
  | string (s : String) : JsValue α
  | object (o : α) : JsValue α

/-- The `typeof` operator. -/
def JsValue.typeof {α : Type} : JsValue α → String
  | .undefined => "undefined"
  | .null => "object"
  | .boolean _ => "boolean"
  | .number _ => "number"
  | .string _ => "string"
  | .object _ => "object"

/-- Truthiness, as tested by `!v`, `v || w` and `if (v)`. -/
def JsValue.truthy {α : Type} : JsValue α → Bool
  | .undefined => false
  | .null => false
  | .boolean b => b
  | .number q => decide (q ≠ 0)
  | .string s => decide (s ≠ "")
  | .object _ => true

/-- Errors thrown by the source or by the runtime. -/
inductive JsError where
  /-- `throw new Error(msg)` -/
  | error (msg : String)
  /-- `throw new TypeError(msg)` -/
  | typeError (msg : String)
  /-- the runtime `TypeError` of reading property `prop` of `undefined` or `null` -/
  | cannotRead (prop : String)
  deriving DecidableEq, Repr

/-- Property read `v.prop`: throws on `undefined` and `null`, gives the field of
an object and `undefined` on the other primitives. -/
def JsValue.read {α β : Type} (v : JsValue α) (prop : String) (field : α → JsValue β) :
    Except JsError (JsValue β) :=
  match v with
  | .undefined => .error (.cannotRead prop)
  | .null => .error (.cannotRead prop)
  | .object o => .ok (field o)
  | _ => .ok .undefined

/-- `String.prototype.toLowerCase`, on the ASCII letters. -/
def toLowerCase (s : String) : String := s.toLower

/-- `v !== s` for a string primitive `s`: a value of another type, an array
among them, is never strictly equal to a string. -/
def JsValue.strictNeString {α : Type} (v : JsValue α) (s : String) : Bool :=
  match v with
  | .string t => decide (t ≠ s)
  | _ => true

/-! ## The cooldown cache -/

/-- The `Map` behind `client.messageCooldownCache`: keys in insertion order, each
with the `Date.now()` of the last recorded use. -/
abbrev Cache := List (String × Int)

/-- `Map.prototype.get`; `none` is `undefined`. -/
def Cache.get (c : Cache) (key : String) : Option Int :=
  match c with
  | [] => none
  | (k, v) :: rest => if k = key then some v else Cache.get rest key

/-- `Map.prototype.has`. -/
def Cache.has (c : Cache) (key : String) : Bool := (Cache.get c key).isSome

/-- `Map.prototype.set`: overwrites the value of a present key in place, appends
an absent one. -/
def Cache.set (c : Cache) (key : String) (value : Int) : Cache :=
  match c with
  | [] => [(key, value)]
  | (k, v) :: rest => if k = key then (k, value) :: rest else (k, v) :: Cache.set rest key value

/-- `Map.prototype.delete`: afterwards the key is absent. -/
def Cache.delete (c : Cache) (key : String) : Cache :=
  match c with
  | [] => []
  | (k, v) :: rest => if k = key then Cache.delete rest key else (k, v) :: Cache.delete rest key

/-! ## What the file imports -/

/-- The names `command.js` takes from modules outside it. -/
structure Env where
  /-- `timeformat` of `@utils/miscUtils`: seconds to a human string -/
  timeformat : ℚ → String
  /-- the `permissions` table of `@utils/botUtils`, as the lookup `permissions[perm]` -/
  permissions : String → String
  /-- `EMOJIS.ARROW` of the configuration -/
  ARROW : String
  /-- `EMBED_COLORS.BOT_EMBED` of the configuration -/
  BOT_EMBED : String
  /-- `PREFIX` of the configuration -/
  PREFIX : String

/-! ## Data model -/

/-- The `SubCommand` typedef. -/
structure SubCommand where
  trigger : String
  description : String
  deriving DecidableEq, Repr

/-- The object `data.command` as a subclass writes it; `none` is an absent
property. -/
structure CommandInfoData where
  enabled : Option Bool
  aliases : Option (List String)
  usage : Option String
  minArgsCount : Option Nat
  category : Option String
  subcommands : Option (List SubCommand)
  botPermissions : Option (List String)
  userPermissions : Option (List String)
  guildOwnerOnly : Option Bool
  botOwnerOnly : Option Bool
  nsfw : Option Bool
  hidden : Option Bool

/-- The object `data.slashCommand` as a subclass writes it. -/
structure InteractionInfoData where
  enabled : Option Bool
  ephemeral : Option Bool
  options : Option (List String)

/-- The object passed as `data`: `name` and `description` are checked
dynamically by `validateInfo`, the other properties follow their JSDoc types and
may be absent. -/
structure CommandData where
  name : JsValue Unit
  description : JsValue Unit
  cooldown : Option ℚ
  command : Option CommandInfoData
  slashCommand : Option InteractionInfoData

/-- The field `this.command` once the constructor has run. `minArgsCount` is
copied without a default, so it may be `undefined`. -/
structure CommandInfo where
  enabled : Bool
  aliases : List String
  usage : String
  minArgsCount : Option Nat
  category : String
  subcommands : List SubCommand
  botPermissions : List String
  userPermissions : List String
  guildOwnerOnly : Bool
  botOwnerOnly : Bool
  nsfw : Bool
  hidden : Bool

/-- The field `this.slashCommand` once the constructor has run. -/
structure InteractionInfo where
  enabled : Bool
  ephemeral : Bool
  options : List String

/-- The object `client.config`. -/
structure Config where
  OWNER_IDS : JsValue (List String)

/-- The client, without its cooldown cache (passed separately). -/
structure BotClient where
  config : Config

/-- A guild member. -/
structure Member where
  id : String

/-- The object returned by `channel.permissionsFor(member)`; `has` takes the list
of permission names asked for (a single name is a list of one). -/
structure Permissions where
  has : List String → Bool

/-- The channel of a message. -/
structure Channel where
  nsfw : Bool
  permissionsFor : Member → Permissions

/-- The guild of a message; `me` is the bot as a member. -/
structure Guild where
  ownerId : String
  me : Member

/-- The parts of a `Message` that `execute` destructures. -/
structure Message where
  channel : Channel
  guild : Guild
  member : Member

/-- The fields set on a `MessageEmbed` by `getUsageEmbed`. -/
structure MessageEmbed where
  color : String
  description : String
  author : Option String
  deriving DecidableEq, Repr

/-- A `messageRun` body: it returns or throws. It is given no access to the
cooldown cache: only `getRemainingCooldown` and `applyCooldown` touch it. -/
abbrev MessageRun := Message → List String → String → String → Except JsError Unit

/-- A `Command` instance. `className` is `this.constructor.name`;
`messageRunOverride` is the `messageRun` of a subclass, `none` for the base
class method. -/
structure Command where
  client : BotClient
  name : String
  description : String
  cooldown : ℚ
  command : CommandInfo
  slashCommand : InteractionInfo
  className : String
  messageRunOverride : Option MessageRun

/-- What one call of `execute` does towards the user. -/
inductive Outcome where
  /-- `return message.reply(text)` -/
  | reply (text : String)
  /-- the bare `return` of the send-capability guard -/
  | silent
  /-- `sendUsage`: the embed handed to `sendMessage` -/
  | usage (embed : MessageEmbed)
  /-- `messageRun` returned and `applyCooldown` ran -/
  | completed
  /-- `messageRun` threw; the error leaves `execute` -/
  | threw (e : JsError)
  deriving DecidableEq, Repr

/-! ## Validation and construction -/

/-- The static method `validateInfo(client, info)`; `client` is `none` when no
client is supplied. -/
def validateInfo (client : Option BotClient) (info : JsValue CommandData) : Except JsError Unit :=
  if client.isNone then .error (.error "A client must be specified.")
  else if info.typeof ≠ "object" then .error (.typeError "Command info must be an Object.")
  else
    match info.read "name" CommandData.name with
    | .error e => .error e
    | .ok name =>
      match name with
      | .string s =>
        if s ≠ toLowerCase s then .error (.error "Command name must be a lowercase string.")
        else
          match info.read "description" CommandData.description with
          | .error e => .error e
          | .ok description =>
            if description.typeof ≠ "string" then
              .error (.typeError "Command description must be a string.")
            else .ok ()
      | _ => .error (.error "Command name must be a lowercase string.")

/-- The constructor `new Command(client, data)`, for a class named `className`
whose own `messageRun`, if it has one, is `run`. Reading a property of the absent
`data.command` or `data.slashCommand` throws. -/
def Command.new (client : Option BotClient) (data : JsValue CommandData)
    (className : String) (run : Option MessageRun) : Except JsError Command :=
  match validateInfo client data with
  | .error e => .error e
  | .ok _ =>
    match client, data with
    | some c, .object d =>
      match d.command with
      | none => .error (.cannotRead "aliases")
      | some dc =>
        match d.slashCommand with
        | none => .error (.cannotRead "enabled")
        | some ds =>
          match d.name, d.description with
          | .string name, .string description =>
            .ok {
              client := c
              name := name
              description := description
              cooldown := if d.cooldown.getD 0 ≠ 0 then d.cooldown.getD 0 else 0
              command := {
                enabled := dc.enabled.getD false
                aliases := dc.aliases.getD []
                usage := dc.usage.getD ""
                minArgsCount := dc.minArgsCount
                category := if dc.category.getD "" ≠ "" then dc.category.getD "" else "NONE"
                subcommands := dc.subcommands.getD []
                botPermissions := dc.botPermissions.getD []
                userPermissions := dc.userPermissions.getD []
                guildOwnerOnly := dc.guildOwnerOnly.getD false
                botOwnerOnly := dc.botOwnerOnly.getD false
                nsfw := dc.nsfw.getD false
                hidden := dc.hidden.getD false }
              slashCommand := {
                enabled := ds.enabled.getD false
                ephemeral := ds.ephemeral.getD false
                options := ds.options.getD [] }
              className := className
              messageRunOverride := run }
          -- not reached: `validateInfo` has accepted only strings here
          | _, _ => .error (.cannotRead "name")
    -- not reached: `validateInfo` has accepted only a client and an object
    | _, _ => .error (.cannotRead "name")

/-! ## Cooldown -/

/-- The method `getRemainingCooldown(memberId)` at `Date.now() = now`: the value
returned and the cache it leaves. -/
def Command.getRemainingCooldown (cmd : Command) (cache : Cache) (now : Int)
    (memberId : String) : ℚ × Cache :=
  let key := cmd.name ++ "|" ++ memberId
  if Cache.has cache key then
    match Cache.get cache key with
    | some last =>
      let remaining : ℚ := ((now - last : Int) : ℚ) * 0.001
      if remaining > cmd.cooldown then (0, Cache.delete cache key)
      else (remaining, cache)
    | none => (0, cache)
  else (0, cache)

/-- The method `applyCooldown(memberId)` at `Date.now() = now`. -/
def Command.applyCooldown (cmd : Command) (cache : Cache) (now : Int)
    (memberId : String) : Cache :=
  let key := cmd.name ++ "|" ++ memberId
  Cache.set cache key now

/-! ## Texts -/

/-- The static method `parsePermissions(perms)`. -/
def parsePermissions (env : Env) (perms : List String) : String :=
  let permissionWord := "permission" ++ (if perms.length > 1 then "s" else "")
  ", ".intercalate (perms.map fun perm => "`" ++ env.permissions perm ++ "`") ++ permissionWord

/-- The value of `desc` in `getUsageEmbed` after the subcommand / usage branch,
before the help and cooldown lines are appended. -/
def Command.usageBody (env : Env) (cmd : Command) (pfx invoke : String) : String :=
  if cmd.command.subcommands.length > 0 then
    cmd.command.subcommands.foldl
      (fun desc sub =>
        desc ++ (env.ARROW ++ " `" ++ invoke ++ " " ++ sub.trigger ++ "`: " ++ sub.description ++ "\n"))
      ""
  else
    "" ++ ("**Usage:**\n```css\n" ++ pfx ++ invoke ++ " " ++ cmd.command.usage ++ "```")

/-- The method `getUsageEmbed(prefix, invoke, title)`; an argument that is `none`
takes its default. -/
def Command.getUsageEmbed (env : Env) (cmd : Command) (pfx invoke title : Option String) :
    MessageEmbed :=
  let pfx := pfx.getD env.PREFIX
  let invoke := invoke.getD cmd.name
  let title := title.getD "Command Usage"
  let desc := cmd.usageBody env pfx invoke
  let desc := if cmd.description ≠ "" then desc ++ ("\n**Help:** " ++ cmd.description) else desc
  let desc :=
    if cmd.cooldown ≠ 0 then desc ++ ("\n**Cooldown:** " ++ env.timeformat cmd.cooldown) else desc
  { color := env.BOT_EMBED
    description := desc
    author := if title ≠ "" then some title else none }

/-- The method `sendUsage(channel, prefix, invoke, title)`: the embed it hands to
`sendMessage`. -/
def Command.sendUsage (env : Env) (cmd : Command) (pfx invoke : String) (title : Option String) :
    MessageEmbed :=
  cmd.getUsageEmbed env (some pfx) (some invoke) title

/-! ## Running a command -/

/-- The method `messageRun`: the subclass body if there is one, else the base
class method, which throws exactly when `command.enabled`. -/
def Command.messageRun (cmd : Command) (message : Message) (args : List String)
    (invoke pfx : String) : Except JsError Unit :=
  match cmd.messageRunOverride with
  | some run => run message args invoke pfx
  | none =>
    if cmd.command.enabled then
      .error (.error (cmd.className ++ " doesn\x27t have a messageRun() method."))
    else .ok ()

/-- The base class method `interactionRun(interaction, options)`: it ignores its
arguments and throws exactly when `slashCommand.enabled`. -/
def Command.interactionRun (cmd : Command) : Except JsError Unit :=
  if cmd.slashCommand.enabled then
    .error (.error (cmd.className ++ " doesn\x27t have a interactionRun() method."))
  else .ok ()

/-- The part of `execute` after the cooldown guard: the send-capability guard, the
six guards that reply, then `messageRun` and `applyCooldown` (at `Date.now() =
later`). -/
def Command.executeGuards (env : Env) (cmd : Command) (cache : Cache) (later : Int)
    (message : Message) (args : List String) (invoke pfx : String) : Outcome × Cache :=
  let channel := message.channel
  let guild := message.guild
  let member := message.member
  let options := cmd.command
  if !(channel.permissionsFor guild.me).has ["SEND_MESSAGES"] then (.silent, cache)
  else if (match options.minArgsCount with
      | some n => decide (n > 0) && decide (args.length < n)
      | none => false) then
    (.usage (cmd.sendUsage env pfx invoke (some "Missing arguments")), cache)
  else if options.guildOwnerOnly && decide (guild.ownerId ≠ member.id) then
    (.reply ("The `" ++ cmd.name ++ "` command can only be used by the guild owner."), cache)
  else if options.botOwnerOnly && cmd.client.config.OWNER_IDS.strictNeString member.id then
    (.reply ("The `" ++ cmd.name ++ "` command can only be used by the bot owner."), cache)
  else if options.nsfw && !channel.nsfw then
    (.reply ("The `" ++ cmd.name ++ "` command can only be used in NSFW Channel."), cache)
  else if decide (options.userPermissions.length > 0)
      && !(channel.permissionsFor member).has options.userPermissions then
    (.reply ("You need " ++ parsePermissions env options.userPermissions ++ " for this command"),
      cache)
  else if decide (options.botPermissions.length > 0)
      && !(channel.permissionsFor guild.me).has options.botPermissions then
    (.reply ("I need " ++ parsePermissions env options.botPermissions ++ " for this command"),
      cache)
  else
    match cmd.messageRun message args invoke pfx with
    | .error e => (.threw e, cache)
    | .ok _ => (.completed, cmd.applyCooldown cache later member.id)

/-- The method `execute(message, args, invoke, prefix)`, run on the cache `cache`
with `Date.now() = now` at the cooldown guard and `Date.now() = later` when
`applyCooldown` runs: what it does and the cache it leaves. -/
def Command.execute (env : Env) (cmd : Command) (cache : Cache) (now later : Int)
    (message : Message) (args : List String) (invoke pfx : String) : Outcome × Cache :=
  if cmd.cooldown > 0 then
    let r := cmd.getRemainingCooldown cache now message.member.id
    if r.1 > 0 then
      (.reply ("You are on cooldown. You can use the command after " ++ env.timeformat r.1), r.2)
    else cmd.executeGuards env r.2 later message args invoke pfx
  else cmd.executeGuards env cache later message args invoke pfx

/-! ## The guards of `execute`, one by one

The eight guards as the specification lists them, each with the condition under
which it stops the invocation and what it then does. `executeSpec` takes the
first guard that fails, in the listed order. -/

/-- The guards of `execute`. -/
inductive Check where
  | cooldown
  | sendCapability
  | argumentCount
  | guildOwnerOnly
  | botOwnerOnly
  | nsfwChannel
  | userPermissions
  | botPermissions
  deriving DecidableEq, Repr

/-- The fixed order of the guards. -/
def Check.order : List Check :=
  [.cooldown, .sendCapability, .argumentCount, .guildOwnerOnly, .botOwnerOnly, .nsfwChannel,
    .userPermissions, .botPermissions]

/-- The key of the cooldown cache for a command and a member. -/
def Command.cooldownKey (cmd : Command) (memberId : String) : String :=
  cmd.name ++ "|" ++ memberId

/-- The text of the on-cooldown reply for a reported time. -/
def onCooldownText (env : Env) (time : ℚ) : String :=
  "You are on cooldown. You can use the command after " ++ env.timeformat time

/-- The text of the missing-user-permissions reply. -/
def missingUserPermissionsText (env : Env) (cmd : Command) : String :=
  "You need " ++ parsePermissions env cmd.command.userPermissions ++ " for this command"

/-- Whether a guard, taken alone, stops the invocation. -/
def Command.fails (cmd : Command) (cache : Cache) (now : Int) (message : Message)
    (args : List String) : Check → Bool
  | .cooldown =>
    decide (cmd.cooldown > 0) && decide ((cmd.getRemainingCooldown cache now message.member.id).1 > 0)
  | .sendCapability => !(message.channel.permissionsFor message.guild.me).has ["SEND_MESSAGES"]
  | .argumentCount =>
    match cmd.command.minArgsCount with
    | some n => decide (n > 0) && decide (args.length < n)
    | none => false
  | .guildOwnerOnly => cmd.command.guildOwnerOnly && decide (message.guild.ownerId ≠ message.member.id)
  | .botOwnerOnly =>
    cmd.command.botOwnerOnly && cmd.client.config.OWNER_IDS.strictNeString message.member.id
  | .nsfwChannel => cmd.command.nsfw && !message.channel.nsfw
  | .userPermissions =>
    decide (cmd.command.userPermissions.length > 0)
      && !(message.channel.permissionsFor message.member).has cmd.command.userPermissions
  | .botPermissions =>
    decide (cmd.command.botPermissions.length > 0)
      && !(message.channel.permissionsFor message.guild.me).has cmd.command.botPermissions

/-- What a guard does when it stops the invocation. -/
def Command.rejection (env : Env) (cmd : Command) (cache : Cache) (now : Int) (message : Message)
    (invoke pfx : String) : Check → Outcome
  | .cooldown => .reply (onCooldownText env (cmd.getRemainingCooldown cache now message.member.id).1)
  | .sendCapability => .silent
  | .argumentCount => .usage (cmd.sendUsage env pfx invoke (some "Missing arguments"))
  | .guildOwnerOnly =>
    .reply ("The `" ++ cmd.name ++ "` command can only be used by the guild owner.")
  | .botOwnerOnly => .reply ("The `" ++ cmd.name ++ "` command can only be used by the bot owner.")
  | .nsfwChannel => .reply ("The `" ++ cmd.name ++ "` command can only be used in NSFW Channel.")
  | .userPermissions => .reply (missingUserPermissionsText env cmd)
  | .botPermissions =>
    .reply ("I need " ++ parsePermissions env cmd.command.botPermissions ++ " for this command")

/-- The required permissions that a holder lacks, taken one by one. -/
def missingPermissions (held : Permissions) (required : List String) : List String :=
  required.filter fun perm => !held.has [perm]

/-- The outcome the specification gives `execute`: that of the first guard, in
`Check.order`, that fails; when none fails, `messageRun` is run. -/
def Command.executeSpec (env : Env) (cmd : Command) (cache : Cache) (now : Int)
    (message : Message) (args : List String) (invoke pfx : String) : Outcome :=
  match Check.order.find? (cmd.fails cache now message args) with
  | some check => cmd.rejection env cache now message invoke pfx check
  | none =>
    match cmd.messageRun message args invoke pfx with
    | .error e => .threw e
    | .ok _ => .completed

/-! ## The validation as specified -/

/-- Whether a value is a string equal to its own lower-casing. -/
def JsValue.isLowercaseString (v : JsValue Unit) : Bool :=
  match v with
  | .string s => decide (s = toLowerCase s)
  | _ => false

/-- The validation as the specification words it: the error of the first of the
four conditions that holds, in the order no client, info not an object, name not
a lowercase string, description not a string; `null` is not an object. -/
def validateInfoSpec (client : Option BotClient) (info : JsValue CommandData) :
    Except JsError Unit :=
  if client.isNone then .error (.error "A client must be specified.")
  else
    match info with
    | .object d =>
      if !d.name.isLowercaseString then .error (.error "Command name must be a lowercase string.")
      else if d.description.typeof ≠ "string" then
        .error (.typeError "Command description must be a string.")
      else .ok ()
    | _ => .error (.typeError "Command info must be an Object.")

/-! ## Sample data -/

/-- A sample environment. -/
def sampleEnv : Env where
  timeformat := fun q => toString q.num ++ "/" ++ toString q.den ++ " seconds"
  permissions := fun perm => perm
  ARROW := ">"
  BOT_EMBED := "#068ADD"
  PREFIX := "!"

/-- A sample policy: nothing required. -/
def sampleInfo : CommandInfo where
  enabled := true
  aliases := []
  usage := "<user>"
  minArgsCount := none
  category := "NONE"
  subcommands := []
  botPermissions := []
  userPermissions := []
  guildOwnerOnly := false
  botOwnerOnly := false
  nsfw := false
  hidden := false

/-- A sample command `list` with a cooldown of `cooldown` seconds and the policy
`info`; its `messageRun` returns. The configured owners are `42` and `43`. -/
def sampleCommand (cooldown : ℚ) (info : CommandInfo) : Command where
  client := { config := { OWNER_IDS := .object ["42", "43"] } }
  name := "list"
  description := "Lists items"
  cooldown := cooldown
  command := info
  slashCommand := { enabled := false, ephemeral := false, options := [] }
  className := "ListCommand"
  messageRunOverride := some fun _ _ _ _ => .ok ()

/-- A sample message by member `memberId` in a guild owned by `1`, where the bot
is member `99`; `botHolds` and `memberHolds` are the permissions the bot and the
member hold in the channel. -/
def sampleMessage (memberId : String) (botHolds memberHolds : List String) : Message where
  channel := {
    nsfw := false
    permissionsFor := fun m =>
      { has := fun perms => perms.all fun perm =>
          if m.id = "99" then botHolds.contains perm else memberHolds.contains perm } }
  guild := { ownerId := "1", me := { id := "99" } }
  member := { id := memberId }

/-- A policy requiring `BAN_MEMBERS` and `KICK_MEMBERS` of the member. -/
def moderationInfo : CommandInfo :=
  { sampleInfo with userPermissions := ["BAN_MEMBERS", "KICK_MEMBERS"] }

/-- The sample command `list` without a `messageRun` of its own. -/
def bareCommand (cooldown : ℚ) (info : CommandInfo) : Command :=
  { sampleCommand cooldown info with messageRunOverride := none }

/-- The data of a command given by name and description alone. -/
def nameOnlyData : CommandData where
  name := .string "list"
  description := .string "Lists items"
  cooldown := none
  command := none
  slashCommand := none

/-- The data of a command that leaves out every optional field of its policy. -/
def minimalData : CommandData where
  name := .string "list"
  description := .string "Lists items"
  cooldown := none
  command := some {
    enabled := some true
    aliases := none
    usage := none
    minArgsCount := none
    category := none
    subcommands := none
    botPermissions := none
    userPermissions := none
    guildOwnerOnly := none
    botOwnerOnly := none
    nsfw := none
    hidden := none }
  slashCommand := some { enabled := none, ephemeral := none, options := none }

/-! ## Theorems -/

/-- After `set`, `get` of the same key gives the value written. -/
theorem Cache.get_set_self (c : Cache) (key : String) (value : Int) :
    Cache.get (Cache.set c key value) key = some value := by
  induction c with
  | nil => simp [Cache.set, Cache.get]
  | cons p rest ih =>
    obtain ⟨k, v⟩ := p
    by_cases h : k = key <;> simp [Cache.set, Cache.get, h, ih]

/-- A `set` leaves the other keys as they were. -/
theorem Cache.get_set_other (c : Cache) (key other : String) (value : Int) (h : other ≠ key) :
    Cache.get (Cache.set c key value) other = Cache.get c other := by
  induction c with
  | nil => simp [Cache.set, Cache.get, Ne.symm h]
  | cons p rest ih =>
    obtain ⟨k, v⟩ := p
    by_cases hk : k = key
    · subst hk; simp [Cache.set, Cache.get, Ne.symm h]
    · by_cases ho : k = other
      · subst ho; simp [Cache.set, Cache.get, hk]
      · simp [Cache.set, Cache.get, hk, ho, ih]

/-- After `delete`, the key is absent. -/
theorem Cache.get_delete_self (c : Cache) (key : String) :
    Cache.get (Cache.delete c key) key = none := by
  induction c with
  | nil => simp [Cache.delete, Cache.get]
  | cons p rest ih =>
    obtain ⟨k, v⟩ := p
    by_cases h : k = key <;> simp [Cache.delete, Cache.get, h, ih]

/-- A `delete` leaves the other keys as they were. -/
theorem Cache.get_delete_other (c : Cache) (key other : String) (h : other ≠ key) :
    Cache.get (Cache.delete c key) other = Cache.get c other := by
  induction c with
  | nil => simp [Cache.delete, Cache.get]
  | cons p rest ih =>
    obtain ⟨k, v⟩ := p
    by_cases hk : k = key
    · subst hk; simp [Cache.delete, Cache.get, Ne.symm h, ih]
    · by_cases ho : k = other
      · subst ho; simp [Cache.delete, Cache.get, hk]
      · simp [Cache.delete, Cache.get, hk, ho, ih]

/-- Every entry found after a `delete` was there before, with the same value. -/
theorem Cache.get_delete_sub (c : Cache) (key other : String) (v : Int)
    (h : Cache.get (Cache.delete c key) other = some v) : Cache.get c other = some v := by
  by_cases ho : other = key
  · subst ho; rw [Cache.get_delete_self] at h; cases h
  · rwa [Cache.get_delete_other c key other ho] at h

/-- The on-cooldown text is not the guild-owner-only text. -/
theorem onCooldownText_ne_guildOwner (env : Env) (t : ℚ) (name : String) :
    onCooldownText env t ≠ "The `" ++ name ++ "` command can only be used by the guild owner." := by
  intro h
  have h2 := congrArg String.data h
  simp [onCooldownText, String.data_append] at h2

/-- The on-cooldown text is not the bot-owner-only text. -/
theorem onCooldownText_ne_botOwner (env : Env) (t : ℚ) (name : String) :
    onCooldownText env t ≠ "The `" ++ name ++ "` command can only be used by the bot owner." := by
  intro h
  have h2 := congrArg String.data h
  simp [onCooldownText, String.data_append] at h2

/-- The on-cooldown text is not the NSFW-channel text. -/
theorem onCooldownText_ne_nsfw (env : Env) (t : ℚ) (name : String) :
    onCooldownText env t ≠ "The `" ++ name ++ "` command can only be used in NSFW Channel." := by
  intro h
  have h2 := congrArg String.data h
  simp [onCooldownText, String.data_append] at h2

/-- The on-cooldown text is not a missing-user-permissions text. -/
theorem onCooldownText_ne_userPermissions (env : Env) (t : ℚ) (s : String) :
    onCooldownText env t ≠ "You need " ++ s ++ " for this command" := by
  intro h
  have h2 := congrArg String.data h
  simp [onCooldownText, String.data_append] at h2

/-- The on-cooldown text is not a missing-bot-permissions text. -/
theorem onCooldownText_ne_botPermissions (env : Env) (t : ℚ) (s : String) :
    onCooldownText env t ≠ "I need " ++ s ++ " for this command" := by
  intro h
  have h2 := congrArg String.data h
  simp [onCooldownText, String.data_append] at h2

/-- What a guard does is never the outcome of a `messageRun` that ran. -/
theorem rejection_ne_completed (env : Env) (cmd : Command) (cache : Cache) (now : Int)
    (message : Message) (invoke pfx : String) (check : Check) :
    cmd.rejection env cache now message invoke pfx check ≠ .completed
      ∧ ∀ e, cmd.rejection env cache now message invoke pfx check ≠ .threw e := by
  cases check <;> simp [Command.rejection]

/-- The guards after the cooldown guard: the first of the seven that fails decides, and the
cache is written only when `messageRun` returns. -/
theorem executeGuards_eq (env : Env) (cmd : Command) (cache c : Cache) (now later : Int)
    (message : Message) (args : List String) (invoke pfx : String) :
    cmd.executeGuards env c later message args invoke pfx
      = match Check.order.tail.find? (cmd.fails cache now message args) with
        | some check => (cmd.rejection env cache now message invoke pfx check, c)
        | none =>
          match cmd.messageRun message args invoke pfx with
          | .error e => (.threw e, c)
          | .ok _ => (.completed, cmd.applyCooldown c later message.member.id) := by
  simp only [Command.executeGuards, Check.order, List.tail, List.find?, Command.fails]
  generalize (!(message.channel.permissionsFor message.guild.me).has ["SEND_MESSAGES"]) = b1
  generalize (cmd.command.guildOwnerOnly && decide (message.guild.ownerId ≠ message.member.id)) = b3
  generalize (cmd.command.botOwnerOnly
    && cmd.client.config.OWNER_IDS.strictNeString message.member.id) = b4
  generalize (cmd.command.nsfw && !message.channel.nsfw) = b5
  generalize (decide (cmd.command.userPermissions.length > 0)
      && !(message.channel.permissionsFor message.member).has cmd.command.userPermissions) = b6
  generalize (decide (cmd.command.botPermissions.length > 0)
      && !(message.channel.permissionsFor message.guild.me).has cmd.command.botPermissions) = b7
  have key : ∀ b2 : Bool,
      (if b1 = true then (Outcome.silent, c)
        else if b2 = true then
          (Outcome.usage (cmd.sendUsage env pfx invoke (some "Missing arguments")), c)
        else if b3 = true then
          (Outcome.reply ("The `" ++ cmd.name ++ "` command can only be used by the guild owner."), c)
        else if b4 = true then
          (Outcome.reply ("The `" ++ cmd.name ++ "` command can only be used by the bot owner."), c)
        else if b5 = true then
          (Outcome.reply ("The `" ++ cmd.name ++ "` command can only be used in NSFW Channel."), c)
        else if b6 = true then
          (Outcome.reply
            ("You need " ++ parsePermissions env cmd.command.userPermissions ++ " for this command"), c)
        else if b7 = true then
          (Outcome.reply
            ("I need " ++ parsePermissions env cmd.command.botPermissions ++ " for this command"), c)
        else
          match cmd.messageRun message args invoke pfx with
          | .error e => (Outcome.threw e, c)
          | .ok _ => (Outcome.completed, cmd.applyCooldown c later message.member.id))
      = match (match b1 with
          | true => some Check.sendCapability
          | false =>
            match b2 with
            | true => some Check.argumentCount
            | false =>
              match b3 with
              | true => some Check.guildOwnerOnly
              | false =>
                match b4 with
                | true => some Check.botOwnerOnly
                | false =>
                  match b5 with
                  | true => some Check.nsfwChannel
                  | false =>
                    match b6 with
                    | true => some Check.userPermissions
                    | false =>
                      match b7 with
                      | true => some Check.botPermissions
                      | false => none) with
        | some check => (cmd.rejection env cache now message invoke pfx check, c)
        | none =>
          match cmd.messageRun message args invoke pfx with
          | .error e => (.threw e, c)
          | .ok _ => (.completed, cmd.applyCooldown c later message.member.id) := by
    intro b2
    cases b1 <;> cases b2 <;> cases b3 <;> cases b4 <;> cases b5 <;> cases b6 <;> cases b7
    all_goals simp [Command.rejection, missingUserPermissionsText]
  exact key _

/-- The outcome of the guards after the cooldown guard. -/
theorem executeGuards_fst (env : Env) (cmd : Command) (cache c : Cache) (now later : Int)
    (message : Message) (args : List String) (invoke pfx : String) :
    (cmd.executeGuards env c later message args invoke pfx).1
      = match Check.order.tail.find? (cmd.fails cache now message args) with
        | some check => cmd.rejection env cache now message invoke pfx check
        | none =>
          match cmd.messageRun message args invoke pfx with
          | .error e => .threw e
          | .ok _ => .completed := by
  rw [executeGuards_eq env cmd cache c now later]
  cases Check.order.tail.find? (cmd.fails cache now message args) with
  | some check => rfl
  | none => cases cmd.messageRun message args invoke pfx <;> rfl

/-- The outcome of `execute` is that of `executeSpec`. -/
theorem execute_fst_eq_executeSpec (env : Env) (cmd : Command) (cache : Cache) (now later : Int)
    (message : Message) (args : List String) (invoke pfx : String) :
    (cmd.execute env cache now later message args invoke pfx).1
      = cmd.executeSpec env cache now message args invoke pfx := by
  by_cases h : cmd.fails cache now message args .cooldown = true
  · have h2 := h
    simp only [Command.fails, Bool.and_eq_true, decide_eq_true_eq] at h2
    simp [Command.execute, Command.executeSpec, Check.order, List.find?, h, h2.1, h2.2,
      Command.rejection, onCooldownText]
  · have h3 : (cmd.execute env cache now later message args invoke pfx).1
        = (cmd.executeGuards env (if cmd.cooldown > 0 then
            (cmd.getRemainingCooldown cache now message.member.id).2 else cache)
            later message args invoke pfx).1 := by
      simp only [Command.fails, Bool.and_eq_true, decide_eq_true_eq, not_and] at h
      by_cases h1 : cmd.cooldown > 0
      · simp [Command.execute, h1, h h1]
      · simp [Command.execute, h1]
    rw [h3, executeGuards_fst env cmd cache _ now]
    simp only [Bool.not_eq_true] at h
    simp only [Command.executeSpec, Check.order, List.find?, List.tail, h]

/-- C1 (amended): the outcome of `execute` is that of the first guard that fails, in the order
cooldown, send capability, argument count, guild-owner-only, bot-owner-only, NSFW channel, user
permissions, bot permissions; `messageRun` is reached exactly when no guard fails. An invocation
that fails both the argument-count and the user-permission guard never gets the
missing-user-permissions reply, and gets the missing-arguments usage message when it passes the
cooldown and send-capability guards. -/
theorem execute_outcome_is_first_failing_check (env : Env) (cmd : Command) (cache : Cache)
    (now later : Int) (message : Message) (args : List String) (invoke pfx : String) :
    (cmd.execute env cache now later message args invoke pfx).1
        = cmd.executeSpec env cache now message args invoke pfx
      ∧ (((cmd.execute env cache now later message args invoke pfx).1 = .completed
            ∨ ∃ e, (cmd.execute env cache now later message args invoke pfx).1 = .threw e)
          ↔ ∀ check ∈ Check.order, cmd.fails cache now message args check = false)
      ∧ (cmd.fails cache now message args .argumentCount = true →
          cmd.fails cache now message args .userPermissions = true →
          (cmd.execute env cache now later message args invoke pfx).1
              ≠ .reply (missingUserPermissionsText env cmd)
            ∧ (cmd.fails cache now message args .cooldown = false →
                cmd.fails cache now message args .sendCapability = false →
                (cmd.execute env cache now later message args invoke pfx).1
                  = .usage (cmd.sendUsage env pfx invoke (some "Missing arguments")))) := by
  rw [execute_fst_eq_executeSpec]
  refine ⟨rfl, ?_, ?_⟩
  · constructor
    · intro h check hmem
      by_contra hf
      simp only [Bool.not_eq_false] at hf
      have hsome : (Check.order.find? (cmd.fails cache now message args)).isSome := by
        rw [List.find?_isSome]; exact ⟨check, hmem, hf⟩
      obtain ⟨c, hc⟩ := Option.isSome_iff_exists.mp hsome
      have hne := rejection_ne_completed env cmd cache now message invoke pfx c
      simp only [Command.executeSpec, hc] at h
      rcases h with h | ⟨e, h⟩
      · exact hne.1 h
      · exact hne.2 e h
    · intro h
      have hnone : Check.order.find? (cmd.fails cache now message args) = none := by
        rw [List.find?_eq_none]; intro c hc; simp [h c hc]
      simp only [Command.executeSpec, hnone]
      cases cmd.messageRun message args invoke pfx
      · exact Or.inr ⟨_, rfl⟩
      · exact Or.inl rfl
  · intro ha _
    constructor
    · simp only [Command.executeSpec, Check.order, List.find?]
      cases h1 : cmd.fails cache now message args .cooldown
      · cases h2 : cmd.fails cache now message args .sendCapability
        · simp [ha, Command.rejection]
        · simp [Command.rejection]
      · simp only [Command.rejection, ne_eq, Outcome.reply.injEq]
        exact onCooldownText_ne_userPermissions env _ _
    · intro h1 h2
      simp [Command.executeSpec, Check.order, List.find?, h1, h2, ha, Command.rejection]

/-- C1, witness: no cooldown, the bot can send, the argument is missing and the member lacks the
required permission: the outcome is the usage message. -/
theorem execute_outcome_is_first_failing_check_witness :
    ((sampleCommand 0 { sampleInfo with minArgsCount := some 1, userPermissions := ["BAN_MEMBERS"] }).execute
        sampleEnv [] 0 0 (sampleMessage "7" ["SEND_MESSAGES"] []) [] "list" "!").1
      = .usage ((sampleCommand 0
          { sampleInfo with minArgsCount := some 1, userPermissions := ["BAN_MEMBERS"] }).sendUsage
          sampleEnv "!" "list" (some "Missing arguments")) :=
  ((execute_outcome_is_first_failing_check sampleEnv
    (sampleCommand 0 { sampleInfo with minArgsCount := some 1, userPermissions := ["BAN_MEMBERS"] })
    [] 0 0 (sampleMessage "7" ["SEND_MESSAGES"] []) [] "list" "!").2.2
    (by simp [Command.fails, sampleCommand])
    (by simp [Command.fails, sampleCommand, sampleMessage])).2
    (by simp [Command.fails, sampleCommand])
    (by simp [Command.fails, sampleMessage])


/-- C1, counterexample: a command with cooldown 10 used 3 seconds ago, called without the one
argument it requires by a member lacking the required permission, fails both the argument-count
and the user-permission guard, and the outcome is the on-cooldown reply, not the usage message. -/
theorem on_cooldown_precedes_missing_arguments :
    (sampleCommand 10 { sampleInfo with minArgsCount := some 1, userPermissions := ["BAN_MEMBERS"] }).fails
        [("list|7", 0)] 3000 (sampleMessage "7" ["SEND_MESSAGES"] []) [] .argumentCount = true
      ∧ (sampleCommand 10 { sampleInfo with minArgsCount := some 1, userPermissions := ["BAN_MEMBERS"] }).fails
        [("list|7", 0)] 3000 (sampleMessage "7" ["SEND_MESSAGES"] []) [] .userPermissions = true
      ∧ ((sampleCommand 10 { sampleInfo with minArgsCount := some 1, userPermissions := ["BAN_MEMBERS"] }).execute
          sampleEnv [("list|7", 0)] 3000 3000 (sampleMessage "7" ["SEND_MESSAGES"] []) [] "list" "!").1
        = .reply (onCooldownText sampleEnv 3) := by
  refine ⟨?_, ?_, ?_⟩
  · simp [Command.fails, sampleCommand, sampleInfo]
  · simp [Command.fails, sampleCommand, sampleInfo, sampleMessage]
  · have hk : "list" ++ "|" ++ "7" = "list|7" := by decide
    norm_num [Command.execute, Command.getRemainingCooldown, Cache.has, Cache.get, sampleCommand,
      sampleMessage, onCooldownText, hk]

/-- The method `getRemainingCooldown` on a cache that holds an entry for the key. -/
theorem getRemainingCooldown_of_get_some (cmd : Command) (cache : Cache) (now last : Int)
    (memberId : String) (h : Cache.get cache (cmd.cooldownKey memberId) = some last) :
    cmd.getRemainingCooldown cache now memberId
      = if ((now - last : Int) : ℚ) * 0.001 > cmd.cooldown
        then (0, Cache.delete cache (cmd.cooldownKey memberId))
        else (((now - last : Int) : ℚ) * 0.001, cache) := by
  simp only [Command.cooldownKey] at h
  simp [Command.getRemainingCooldown, Command.cooldownKey, Cache.has, h]

/-- The method `getRemainingCooldown` on a cache without an entry for the key. -/
theorem getRemainingCooldown_of_get_none (cmd : Command) (cache : Cache) (now : Int)
    (memberId : String) (h : Cache.get cache (cmd.cooldownKey memberId) = none) :
    cmd.getRemainingCooldown cache now memberId = (0, cache) := by
  simp only [Command.cooldownKey] at h
  simp [Command.getRemainingCooldown, Cache.has, h]

/-- Every entry found after `getRemainingCooldown` was there before, with the same value. -/
theorem getRemainingCooldown_snd_sub (cmd : Command) (cache : Cache) (now : Int)
    (memberId key : String) (v : Int)
    (h : Cache.get (cmd.getRemainingCooldown cache now memberId).2 key = some v) :
    Cache.get cache key = some v := by
  cases hg : Cache.get cache (cmd.cooldownKey memberId) with
  | none => rwa [getRemainingCooldown_of_get_none cmd cache now memberId hg] at h
  | some last =>
    rw [getRemainingCooldown_of_get_some cmd cache now last memberId hg] at h
    split at h
    · exact Cache.get_delete_sub _ _ _ _ h
    · exact h

/-- The guards after the cooldown guard write the cache exactly when the outcome is `completed`. -/
theorem executeGuards_snd (env : Env) (cmd : Command) (c : Cache) (later : Int)
    (message : Message) (args : List String) (invoke pfx : String) :
    (cmd.executeGuards env c later message args invoke pfx).2
      = if (cmd.executeGuards env c later message args invoke pfx).1 = .completed
        then cmd.applyCooldown c later message.member.id else c := by
  rw [executeGuards_eq env cmd c c 0 later]
  cases Check.order.tail.find? (cmd.fails c 0 message args) with
  | some check =>
    have h := (rejection_ne_completed env cmd c 0 message invoke pfx check).1
    simp [h]
  | none => cases cmd.messageRun message args invoke pfx <;> simp

/-- The guards after the cooldown guard never send the on-cooldown reply. -/
theorem executeGuards_fst_ne_onCooldown (env : Env) (cmd : Command) (c : Cache) (later : Int)
    (message : Message) (args : List String) (invoke pfx : String) (t : ℚ) :
    (cmd.executeGuards env c later message args invoke pfx).1 ≠ .reply (onCooldownText env t) := by
  rw [executeGuards_eq env cmd c c 0 later]
  cases h : Check.order.tail.find? (cmd.fails c 0 message args) with
  | some check =>
    have hmem := List.mem_of_find?_eq_some h
    cases check
    · simp [Check.order] at hmem
    all_goals simp only [Command.rejection, ne_eq, Outcome.reply.injEq, reduceCtorEq,
      not_false_eq_true, missingUserPermissionsText]
    · exact (onCooldownText_ne_guildOwner env t _).symm
    · exact (onCooldownText_ne_botOwner env t _).symm
    · exact (onCooldownText_ne_nsfw env t _).symm
    · exact (onCooldownText_ne_userPermissions env t _).symm
    · exact (onCooldownText_ne_botPermissions env t _).symm
  | none => cases cmd.messageRun message args invoke pfx <;> simp

/-- The outcome of the guards after the cooldown guard does not depend on the cache. -/
theorem executeGuards_fst_cache_irrelevant (env : Env) (cmd : Command) (c c2 : Cache) (later later2 : Int)
    (message : Message) (args : List String) (invoke pfx : String) :
    (cmd.executeGuards env c later message args invoke pfx).1
      = (cmd.executeGuards env c2 later2 message args invoke pfx).1 := by
  rw [executeGuards_fst env cmd c c 0, executeGuards_fst env cmd c c2 0]

/-- The cache key of the sample command `list` for member `7`. -/
theorem sample_key : "list" ++ "|" ++ "7" = "list|7" := by decide

/-- C2, the code at cooldown 10 and a last use 3 seconds ago: `getRemainingCooldown` returns the
elapsed 3 seconds, and the on-cooldown reply of `execute` formats 3, not the remaining 7. -/
theorem on_cooldown_reply_reports_elapsed_time (env : Env) :
    (sampleCommand 10 sampleInfo).getRemainingCooldown [("list|7", 0)] 3000 "7"
        = (3, [("list|7", 0)])
      ∧ (sampleCommand 10 sampleInfo).execute env [("list|7", 0)] 3000 3000
          (sampleMessage "7" ["SEND_MESSAGES"] []) [] "list" "!"
        = (.reply ("You are on cooldown. You can use the command after " ++ env.timeformat 3),
            [("list|7", 0)]) := by
  constructor <;>
    norm_num [Command.execute, Command.getRemainingCooldown, Cache.has, Cache.get, sampleCommand,
      sampleMessage, sample_key]

/-- With an entry whose elapsed time is positive and at most the cooldown, `execute` sends the
on-cooldown reply, reports the elapsed time and leaves the cache as it was. -/
theorem execute_within_cooldown (env : Env) (cmd : Command) (cache : Cache) (now later last : Int)
    (message : Message) (args : List String) (invoke pfx : String)
    (hget : Cache.get cache (cmd.cooldownKey message.member.id) = some last)
    (hpos : 0 < ((now - last : Int) : ℚ) * 0.001)
    (hle : ((now - last : Int) : ℚ) * 0.001 ≤ cmd.cooldown) :
    cmd.execute env cache now later message args invoke pfx
      = (.reply (onCooldownText env (((now - last : Int) : ℚ) * 0.001)), cache) := by
  have hd : cmd.cooldown > 0 := lt_of_lt_of_le hpos hle
  have hr := getRemainingCooldown_of_get_some cmd cache now last message.member.id hget
  rw [if_neg (not_lt.mpr hle)] at hr
  simp only [Command.execute, hd, hr, hpos, if_true, onCooldownText]

/-- C3, the code right after `applyCooldown`: read at the same instant, `getRemainingCooldown`
returns 0 for every command, whatever its cooldown; for cooldown 10 it returns 0 at once, 3
after 3 seconds and 10 after 10 seconds, when the entry is still in the cache. -/
theorem getRemainingCooldown_after_applyCooldown_is_elapsed :
    (∀ (cmd : Command) (cache : Cache) (now : Int) (memberId : String),
        (cmd.getRemainingCooldown (cmd.applyCooldown cache now memberId) now memberId).1 = 0)
      ∧ ((sampleCommand 10 sampleInfo).getRemainingCooldown
          ((sampleCommand 10 sampleInfo).applyCooldown [] 5000 "7") 5000 "7").1 = 0
      ∧ ((sampleCommand 10 sampleInfo).getRemainingCooldown
          ((sampleCommand 10 sampleInfo).applyCooldown [] 5000 "7") 8000 "7").1 = 3
      ∧ ((sampleCommand 10 sampleInfo).getRemainingCooldown
          ((sampleCommand 10 sampleInfo).applyCooldown [] 5000 "7") 15000 "7")
        = (10, [("list|7", 5000)]) := by
  refine ⟨?_, ?_, ?_, ?_⟩
  · intro cmd cache now memberId
    have hget : Cache.get (cmd.applyCooldown cache now memberId) (cmd.cooldownKey memberId)
        = some now := Cache.get_set_self _ _ _
    rw [getRemainingCooldown_of_get_some cmd _ now now memberId hget]
    split <;> simp
  all_goals
    norm_num [Command.getRemainingCooldown, Command.applyCooldown, Cache.set, Cache.has, Cache.get,
      sampleCommand, sample_key]

/-- C4, counterexample: with cooldown 10 and an entry exactly 10 seconds old,
`getRemainingCooldown` returns 10 and keeps the entry, and `execute` sends the on-cooldown reply. -/
theorem entry_at_exactly_the_cooldown_is_kept :
    (sampleCommand 10 sampleInfo).getRemainingCooldown [("list|7", 0)] 10000 "7"
        = (10, [("list|7", 0)])
      ∧ (sampleCommand 10 sampleInfo).execute sampleEnv [("list|7", 0)] 10000 10000
          (sampleMessage "7" ["SEND_MESSAGES"] []) [] "list" "!"
        = (.reply (onCooldownText sampleEnv 10), [("list|7", 0)]) := by
  constructor <;>
    norm_num [Command.execute, Command.getRemainingCooldown, Cache.has, Cache.get, sampleCommand,
      sampleMessage, sample_key, onCooldownText]

/-- C4 (amended): when the elapsed time of the entry is strictly greater than the cooldown,
`getRemainingCooldown` returns 0 and deletes the entry, so that the key is absent afterwards;
`execute` of a command with a positive cooldown goes on to the remaining guards on the cache
without the entry, and never sends the on-cooldown reply. -/
theorem stale_entry_is_evicted (env : Env) (cmd : Command) (cache : Cache) (now later last : Int)
    (message : Message) (args : List String) (invoke pfx : String)
    (hget : Cache.get cache (cmd.cooldownKey message.member.id) = some last)
    (hstale : ((now - last : Int) : ℚ) * 0.001 > cmd.cooldown) :
    cmd.getRemainingCooldown cache now message.member.id
        = (0, Cache.delete cache (cmd.cooldownKey message.member.id))
      ∧ Cache.has (cmd.getRemainingCooldown cache now message.member.id).2
          (cmd.cooldownKey message.member.id) = false
      ∧ (cmd.cooldown > 0 →
          cmd.execute env cache now later message args invoke pfx
            = cmd.executeGuards env (Cache.delete cache (cmd.cooldownKey message.member.id)) later
                message args invoke pfx)
      ∧ ∀ t, (cmd.execute env cache now later message args invoke pfx).1
          ≠ .reply (onCooldownText env t) := by
  have hr := getRemainingCooldown_of_get_some cmd cache now last message.member.id hget
  rw [if_pos hstale] at hr
  refine ⟨hr, ?_, ?_, ?_⟩
  · simp [hr, Cache.has, Cache.get_delete_self]
  · intro hd
    simp [Command.execute, hd, hr]
  · intro t
    by_cases hd : cmd.cooldown > 0
    · simp only [Command.execute, hd, hr, if_true, lt_self_iff_false, if_false]
      exact executeGuards_fst_ne_onCooldown _ _ _ _ _ _ _ _ _
    · simp only [Command.execute, hd, if_false]
      exact executeGuards_fst_ne_onCooldown _ _ _ _ _ _ _ _ _

/-- C4, witness: cooldown 10 and an entry 11 seconds old. -/
theorem stale_entry_is_evicted_witness :
    (sampleCommand 10 sampleInfo).getRemainingCooldown [("list|7", 0)] 11000 "7" = (0, [])
      ∧ ∀ t, ((sampleCommand 10 sampleInfo).execute sampleEnv [("list|7", 0)] 11000 11000
          (sampleMessage "7" ["SEND_MESSAGES"] []) [] "list" "!").1
          ≠ .reply (onCooldownText sampleEnv t) := by
  have h := stale_entry_is_evicted sampleEnv (sampleCommand 10 sampleInfo) [("list|7", 0)] 11000
    11000 0 (sampleMessage "7" ["SEND_MESSAGES"] []) [] "list" "!"
    (by simp [Command.cooldownKey, sampleCommand, sampleMessage, sample_key, Cache.get])
    (by norm_num [sampleCommand])
  refine ⟨?_, h.2.2.2⟩
  have h1 := h.1
  simpa [Command.cooldownKey, sampleCommand, sampleMessage, sample_key, Cache.delete] using h1

/-- When the cooldown guard passes, `execute` is the remaining guards run on the cache the
cooldown guard leaves. -/
theorem execute_of_cooldown_passes (env : Env) (cmd : Command) (cache : Cache) (now later : Int)
    (message : Message) (args : List String) (invoke pfx : String)
    (h : cmd.fails cache now message args .cooldown = false) :
    cmd.execute env cache now later message args invoke pfx
      = cmd.executeGuards env
          (if cmd.cooldown > 0 then (cmd.getRemainingCooldown cache now message.member.id).2
            else cache)
          later message args invoke pfx := by
  simp only [Command.fails, Bool.and_eq_false_iff, decide_eq_false_iff_not] at h
  by_cases h1 : cmd.cooldown > 0
  · have h2 : ¬ (cmd.getRemainingCooldown cache now message.member.id).1 > 0 := by
      rcases h with h | h
      · exact absurd h1 h
      · exact h
    simp only [Command.execute, h1, h2, if_true, if_false]
  · simp only [Command.execute, h1, if_false]

/-- When the cooldown guard fails, `execute` sends the on-cooldown reply. -/
theorem execute_of_cooldown_fails (env : Env) (cmd : Command) (cache : Cache) (now later : Int)
    (message : Message) (args : List String) (invoke pfx : String)
    (h : cmd.fails cache now message args .cooldown = true) :
    cmd.execute env cache now later message args invoke pfx
      = (.reply (onCooldownText env (cmd.getRemainingCooldown cache now message.member.id).1),
          (cmd.getRemainingCooldown cache now message.member.id).2) := by
  simp only [Command.fails, Bool.and_eq_true, decide_eq_true_eq] at h
  simp only [Command.execute, h.1, h.2, if_true, onCooldownText]

/-- C5, the code with a list of owners: when `botOwnerOnly` is set, `OWNER_IDS` is an array
and the earlier guards pass, `execute` sends the bot-owner-only reply whoever the member is,
listed owners included. -/
theorem botOwnerOnly_rejects_configured_owner (env : Env) (cmd : Command) (cache : Cache)
    (now later : Int) (message : Message) (args : List String) (invoke pfx : String)
    (ids : List String)
    (hids : cmd.client.config.OWNER_IDS = .object ids)
    (hflag : cmd.command.botOwnerOnly = true)
    (h1 : cmd.fails cache now message args .cooldown = false)
    (h2 : cmd.fails cache now message args .sendCapability = false)
    (h3 : cmd.fails cache now message args .argumentCount = false)
    (h4 : cmd.fails cache now message args .guildOwnerOnly = false) :
    (cmd.execute env cache now later message args invoke pfx).1
      = .reply ("The `" ++ cmd.name ++ "` command can only be used by the bot owner.") := by
  have h5 : cmd.fails cache now message args .botOwnerOnly = true := by
    simp [Command.fails, hflag, hids, JsValue.strictNeString]
  rw [execute_fst_eq_executeSpec]
  simp [Command.executeSpec, Check.order, List.find?, h1, h2, h3, h4, h5, Command.rejection]

/-- C5, witness: member `42`, one of the configured owners `42` and `43`, is rejected. -/
theorem botOwnerOnly_rejects_configured_owner_witness :
    "42" ∈ ["42", "43"]
      ∧ ((sampleCommand 0 { sampleInfo with botOwnerOnly := true }).execute sampleEnv [] 0 0
          (sampleMessage "42" ["SEND_MESSAGES"] []) [] "list" "!").1
        = .reply "The `list` command can only be used by the bot owner." := by
  refine ⟨by decide, ?_⟩
  have h := botOwnerOnly_rejects_configured_owner sampleEnv
    (sampleCommand 0 { sampleInfo with botOwnerOnly := true }) [] 0 0
    (sampleMessage "42" ["SEND_MESSAGES"] []) [] "list" "!" ["42", "43"] rfl rfl
    (by simp [Command.fails, sampleCommand])
    (by simp [Command.fails, sampleMessage])
    (by simp [Command.fails, sampleCommand, sampleInfo])
    (by simp [Command.fails, sampleCommand, sampleInfo])
  rw [h]
  have hn : "The `" ++ "list" ++ "` command can only be used by the bot owner."
      = "The `list` command can only be used by the bot owner." := by decide
  simp [sampleCommand, hn]

/-- C6, counterexample: the bot holds no permission in the channel, the command with cooldown
10 was used 3 seconds ago, and `execute` sends the on-cooldown reply. -/
theorem on_cooldown_reply_without_send_capability :
    ((sampleMessage "7" [] []).channel.permissionsFor (sampleMessage "7" [] []).guild.me).has
        ["SEND_MESSAGES"] = false
      ∧ ((sampleCommand 10 sampleInfo).execute sampleEnv [("list|7", 0)] 3000 3000
          (sampleMessage "7" [] []) [] "list" "!").1
        = .reply (onCooldownText sampleEnv 3) := by
  constructor
  · simp [sampleMessage]
  · norm_num [Command.execute, Command.getRemainingCooldown, Cache.has, Cache.get, sampleCommand,
      sampleMessage, sample_key, onCooldownText]

/-- C6 (amended): when the bot lacks `SEND_MESSAGES` in the channel, an invocation that passes
the cooldown guard produces nothing, one that fails the cooldown guard gets the on-cooldown
reply, and in neither case is `messageRun` run: the outcome is never that of a `messageRun`
and `execute` is the same whatever `messageRun` is. -/
theorem cannot_send_aborts_silently_after_cooldown_guard (env : Env) (cmd : Command)
    (cache : Cache) (now later : Int) (message : Message) (args : List String) (invoke pfx : String)
    (h : (message.channel.permissionsFor message.guild.me).has ["SEND_MESSAGES"] = false) :
    (cmd.fails cache now message args .cooldown = false →
        (cmd.execute env cache now later message args invoke pfx).1 = .silent)
      ∧ (cmd.fails cache now message args .cooldown = true →
        (cmd.execute env cache now later message args invoke pfx).1
          = .reply (onCooldownText env (cmd.getRemainingCooldown cache now message.member.id).1))
      ∧ (cmd.execute env cache now later message args invoke pfx).1 ≠ .completed
      ∧ (∀ e, (cmd.execute env cache now later message args invoke pfx).1 ≠ .threw e)
      ∧ ∀ run, { cmd with messageRunOverride := run }.execute env cache now later message args
            invoke pfx
          = cmd.execute env cache now later message args invoke pfx := by
  have hs : ∀ (c : Command) (k : Cache),
      c.executeGuards env k later message args invoke pfx = (.silent, k) := by
    intro c k
    simp [Command.executeGuards, h]
  have hp : (cmd.fails cache now message args .cooldown = false →
        (cmd.execute env cache now later message args invoke pfx).1 = .silent) := by
    intro hc
    rw [execute_of_cooldown_passes env cmd cache now later message args invoke pfx hc, hs]
  have hf : (cmd.fails cache now message args .cooldown = true →
        (cmd.execute env cache now later message args invoke pfx).1
          = .reply (onCooldownText env (cmd.getRemainingCooldown cache now message.member.id).1)) := by
    intro hc
    rw [execute_of_cooldown_fails env cmd cache now later message args invoke pfx hc]
  refine ⟨hp, hf, ?_, ?_, ?_⟩
  · cases hc : cmd.fails cache now message args .cooldown
    · rw [hp hc]; simp
    · rw [hf hc]; simp
  · intro e
    cases hc : cmd.fails cache now message args .cooldown
    · rw [hp hc]; simp
    · rw [hf hc]; simp
  · intro run
    simp only [Command.execute, hs]
    rfl

/-- C6, witness: a command without cooldown in a channel where the bot holds no permission. -/
theorem cannot_send_aborts_silently_witness :
    ((sampleCommand 0 sampleInfo).execute sampleEnv [] 0 0 (sampleMessage "7" [] []) []
        "list" "!").1 = .silent :=
  (cannot_send_aborts_silently_after_cooldown_guard sampleEnv (sampleCommand 0 sampleInfo) [] 0 0
    (sampleMessage "7" [] []) [] "list" "!" (by simp [sampleMessage])).1
    (by simp [Command.fails, sampleCommand])

/-- Every entry found after `execute` was there before with the same value, or is the entry of
this command and member written at `later` by a completed invocation. -/
theorem execute_snd_sub (env : Env) (cmd : Command) (cache : Cache)
    (now later : Int) (message : Message) (args : List String) (invoke pfx : String)
    (key : String) (v : Int)
    (h : Cache.get (cmd.execute env cache now later message args invoke pfx).2 key = some v) :
    Cache.get cache key = some v
      ∨ ((cmd.execute env cache now later message args invoke pfx).1 = .completed
          ∧ key = cmd.cooldownKey message.member.id ∧ v = later) := by
  cases hc : cmd.fails cache now message args .cooldown
  · rw [execute_of_cooldown_passes env cmd cache now later message args invoke pfx hc] at h ⊢
    have hsub : ∀ k w, Cache.get (if cmd.cooldown > 0 then
        (cmd.getRemainingCooldown cache now message.member.id).2 else cache) k = some w →
        Cache.get cache k = some w := by
      intro k w hk
      split at hk
      · exact getRemainingCooldown_snd_sub cmd cache now _ k w hk
      · exact hk
    generalize (if cmd.cooldown > 0 then
        (cmd.getRemainingCooldown cache now message.member.id).2 else cache) = c2 at h hsub ⊢
    rw [executeGuards_snd] at h
    by_cases hdone : (cmd.executeGuards env c2 later message args invoke pfx).1 = .completed
    · rw [if_pos hdone] at h
      by_cases hkey : key = cmd.cooldownKey message.member.id
      · subst hkey
        have hs : Cache.get (cmd.applyCooldown c2 later message.member.id)
            (cmd.cooldownKey message.member.id) = some later := Cache.get_set_self _ _ _
        rw [hs] at h
        exact Or.inr ⟨hdone, rfl, (Option.some.inj h).symm⟩
      · have ho : Cache.get (cmd.applyCooldown c2 later message.member.id) key
            = Cache.get c2 key := Cache.get_set_other _ _ _ _ hkey
        rw [ho] at h
        exact Or.inl (hsub _ _ h)
    · rw [if_neg hdone] at h
      exact Or.inl (hsub _ _ h)
  · rw [execute_of_cooldown_fails env cmd cache now later message args invoke pfx hc] at h
    exact Or.inl (getRemainingCooldown_snd_sub cmd cache now _ key v h)

/-- An invocation completes exactly when no guard fails and `messageRun` returns. -/
theorem execute_completed_iff (env : Env) (cmd : Command) (cache : Cache)
    (now later : Int) (message : Message) (args : List String) (invoke pfx : String) :
    (cmd.execute env cache now later message args invoke pfx).1 = .completed
      ↔ (∀ check ∈ Check.order, cmd.fails cache now message args check = false)
          ∧ cmd.messageRun message args invoke pfx = .ok () := by
  rw [execute_fst_eq_executeSpec]
  simp only [Command.executeSpec]
  cases hf : Check.order.find? (cmd.fails cache now message args) with
  | some check =>
    have hne := (rejection_ne_completed env cmd cache now message invoke pfx check).1
    have hmem := List.mem_of_find?_eq_some hf
    have htrue := List.find?_some hf
    constructor
    · intro h; exact absurd h hne
    · intro h
      rw [h.1 check hmem] at htrue
      cases htrue
  | none =>
    have hall : ∀ check ∈ Check.order, cmd.fails cache now message args check = false := by
      intro check hmem
      have := List.find?_eq_none.mp hf check hmem
      simpa using this
    cases hrun : cmd.messageRun message args invoke pfx with
    | error e => simp
    | ok u => exact ⟨fun _ => ⟨hall, rfl⟩, fun _ => rfl⟩

/-- C7: after an invocation that does not complete, every entry of the cache was there before
with the same timestamp; in every case the entries of other keys were there before with the same
timestamp; an invocation completes exactly when no guard fails and `messageRun` returns, and it
then holds the entry of this command and member with the timestamp of `applyCooldown`. -/
theorem rejected_invocation_records_no_cooldown (env : Env) (cmd : Command) (cache : Cache)
    (now later : Int) (message : Message) (args : List String) (invoke pfx : String) :
    ((cmd.execute env cache now later message args invoke pfx).1 ≠ .completed →
        ∀ key v, Cache.get (cmd.execute env cache now later message args invoke pfx).2 key = some v →
          Cache.get cache key = some v)
      ∧ (∀ key v, key ≠ cmd.cooldownKey message.member.id →
          Cache.get (cmd.execute env cache now later message args invoke pfx).2 key = some v →
          Cache.get cache key = some v)
      ∧ ((cmd.execute env cache now later message args invoke pfx).1 = .completed
          ↔ (∀ check ∈ Check.order, cmd.fails cache now message args check = false)
              ∧ cmd.messageRun message args invoke pfx = .ok ())
      ∧ ((cmd.execute env cache now later message args invoke pfx).1 = .completed →
          Cache.get (cmd.execute env cache now later message args invoke pfx).2
            (cmd.cooldownKey message.member.id) = some later) := by
  refine ⟨?_, ?_, execute_completed_iff env cmd cache now later message args invoke pfx, ?_⟩
  · intro hne key v h
    rcases execute_snd_sub env cmd cache now later message args invoke pfx key v h with h1 | h1
    · exact h1
    · exact absurd h1.1 hne
  · intro key v hkey h
    rcases execute_snd_sub env cmd cache now later message args invoke pfx key v h with h1 | h1
    · exact h1
    · exact absurd h1.2.1 hkey
  · intro hdone
    have hc : cmd.fails cache now message args .cooldown = false :=
      ((execute_completed_iff env cmd cache now later message args invoke pfx).mp hdone).1
        .cooldown (by simp [Check.order])
    rw [execute_of_cooldown_passes env cmd cache now later message args invoke pfx hc] at hdone ⊢
    rw [executeGuards_snd, if_pos hdone]
    exact Cache.get_set_self _ _ _

/-- C7, witness: an invocation rejected for a missing argument, on a cache with a stale entry. -/
theorem rejected_invocation_records_no_cooldown_witness :
    ((sampleCommand 10 { sampleInfo with minArgsCount := some 1 }).execute sampleEnv
        [("list|7", 0)] 20000 20000 (sampleMessage "7" ["SEND_MESSAGES"] []) [] "list" "!").1
        ≠ .completed
      ∧ ∀ key v,
        Cache.get ((sampleCommand 10 { sampleInfo with minArgsCount := some 1 }).execute sampleEnv
          [("list|7", 0)] 20000 20000 (sampleMessage "7" ["SEND_MESSAGES"] []) [] "list" "!").2 key
          = some v → Cache.get [("list|7", 0)] key = some v := by
  have hne : ((sampleCommand 10 { sampleInfo with minArgsCount := some 1 }).execute sampleEnv
        [("list|7", 0)] 20000 20000 (sampleMessage "7" ["SEND_MESSAGES"] []) [] "list" "!").1
        ≠ .completed := by
    norm_num [Command.execute, Command.getRemainingCooldown, Cache.has, Cache.get, sampleCommand,
      sampleMessage, sample_key, Command.executeGuards, sampleInfo]
    simp
  exact ⟨hne, (rejected_invocation_records_no_cooldown sampleEnv _ _ 20000 20000 _ [] "list" "!").1 hne⟩

/-- C8: for a command with cooldown 0, `execute` never sends the on-cooldown reply and the
cooldown guard does not fail; `execute` is the remaining guards run on the cache as it was, its
outcome is the same on every cache and at every time, and the cache it leaves is the one it got
unless the invocation completed and `applyCooldown` ran. A command constructed from data without
a `cooldown` has cooldown 0. -/
theorem zero_cooldown_never_rejects_on_cooldown :
    (∀ (env : Env) (cmd : Command) (cache : Cache) (now later : Int) (message : Message)
        (args : List String) (invoke pfx : String), cmd.cooldown = 0 →
        (∀ t, (cmd.execute env cache now later message args invoke pfx).1
            ≠ .reply (onCooldownText env t))
          ∧ cmd.fails cache now message args .cooldown = false
          ∧ cmd.execute env cache now later message args invoke pfx
              = cmd.executeGuards env cache later message args invoke pfx
          ∧ (∀ cache2 now2, (cmd.execute env cache2 now2 later message args invoke pfx).1
              = (cmd.execute env cache now later message args invoke pfx).1)
          ∧ ((cmd.execute env cache now later message args invoke pfx).2 = cache
              ∨ ((cmd.execute env cache now later message args invoke pfx).1 = .completed
                ∧ (cmd.execute env cache now later message args invoke pfx).2
                  = cmd.applyCooldown cache later message.member.id)))
      ∧ (∀ (client : Option BotClient) (data : CommandData) (className : String)
          (run : Option MessageRun) (cmd : Command),
          Command.new client (.object data) className run = .ok cmd →
          data.cooldown = none → cmd.cooldown = 0) := by
  constructor
  · intro env cmd cache now later message args invoke pfx hd
    have hex : ∀ (k : Cache) (n : Int), cmd.execute env k n later message args invoke pfx
        = cmd.executeGuards env k later message args invoke pfx := by
      intro k n
      simp [Command.execute, hd]
    refine ⟨?_, ?_, hex cache now, ?_, ?_⟩
    · intro t
      rw [hex]
      exact executeGuards_fst_ne_onCooldown _ _ _ _ _ _ _ _ _
    · simp [Command.fails, hd]
    · intro cache2 now2
      rw [hex, hex]
      exact executeGuards_fst_cache_irrelevant _ _ _ _ _ _ _ _ _ _
    · rw [hex, executeGuards_snd]
      by_cases hdone : (cmd.executeGuards env cache later message args invoke pfx).1 = .completed
      · exact Or.inr ⟨hdone, by rw [if_pos hdone]⟩
      · exact Or.inl (by rw [if_neg hdone])
  · intro client data className run cmd hnew hnone
    simp only [Command.new] at hnew
    repeat' split at hnew
    all_goals cases hnew
    all_goals simp_all

/-- C8, witness: a command with cooldown 0 on a cache holding a fresh entry for it. -/
theorem zero_cooldown_never_rejects_on_cooldown_witness :
    (sampleCommand 0 sampleInfo).execute sampleEnv [("list|7", 0)] 1 2
        (sampleMessage "7" ["SEND_MESSAGES"] []) [] "list" "!"
      = (sampleCommand 0 sampleInfo).executeGuards sampleEnv [("list|7", 0)] 2
        (sampleMessage "7" ["SEND_MESSAGES"] []) [] "list" "!" :=
  (zero_cooldown_never_rejects_on_cooldown.1 sampleEnv (sampleCommand 0 sampleInfo) [("list|7", 0)]
    1 2 (sampleMessage "7" ["SEND_MESSAGES"] []) [] "list" "!" rfl).2.2.1

/-- On every `info` other than `null`, `validateInfo` raises the error of the first of the four
conditions that holds, and accepts when none holds. -/
theorem validateInfo_eq_validateInfoSpec (client : Option BotClient) (info : JsValue CommandData)
    (h : info ≠ .null) : validateInfo client info = validateInfoSpec client info := by
  cases client with
  | none => simp [validateInfo, validateInfoSpec]
  | some c =>
    cases info with
    | null => exact absurd rfl h
    | object d =>
      simp only [validateInfo, validateInfoSpec, JsValue.typeof, JsValue.read,
        JsValue.isLowercaseString]
      cases hn : d.name <;> simp
    | _ => simp [validateInfo, validateInfoSpec, JsValue.typeof]

/-- The constructor throws the error of `validateInfo` whenever `validateInfo` throws. -/
theorem new_eq_error_of_validateInfo (client : Option BotClient) (data : JsValue CommandData)
    (className : String) (run : Option MessageRun) (e : JsError)
    (h : validateInfo client data = .error e) :
    Command.new client data className run = .error e := by
  simp [Command.new, h]

/-- C9, the code at `info = null`: `typeof null` is `object`, so `validateInfo` passes the
object check and throws the runtime error of reading `name` of `null`, where the validation as
specified raises the not-an-object error; the constructor throws the same runtime error. -/
theorem validateInfo_null_throws_runtime_error (client : BotClient) (className : String)
    (run : Option MessageRun) :
    validateInfo (some client) .null = .error (.cannotRead "name")
      ∧ validateInfoSpec (some client) .null
          = .error (.typeError "Command info must be an Object.")
      ∧ Command.new (some client) .null className run = .error (.cannotRead "name") := by
  refine ⟨?_, ?_, ?_⟩
  · simp [validateInfo, JsValue.typeof, JsValue.read]
  · simp [validateInfoSpec]
  · simp [Command.new, validateInfo, JsValue.typeof, JsValue.read]

/-- C10, the code on the subcommands `add` and `remove` with invoke `list`: each line is the
arrow, then the invoke and trigger between backticks, then the description; the prefix occurs in
no line, whatever it is. Without subcommands the body is the fenced usage string with the prefix. -/
theorem usageBody_subcommand_lines_omit_prefix :
    (∀ (env : Env) (pfx : String),
        (sampleCommand 0 { sampleInfo with
            subcommands := [⟨"add", "Add item"⟩, ⟨"remove", "Remove item"⟩] }).usageBody env pfx "list"
          = env.ARROW ++ " `list add`: Add item\n" ++ (env.ARROW ++ " `list remove`: Remove item\n"))
      ∧ (sampleCommand 0 { sampleInfo with
            subcommands := [⟨"add", "Add item"⟩, ⟨"remove", "Remove item"⟩] }).usageBody sampleEnv "!" "list"
          = "> `list add`: Add item\n> `list remove`: Remove item\n"
      ∧ (sampleCommand 0 sampleInfo).usageBody sampleEnv "!" "list"
          = "**Usage:**\n```css\n!list <user>```" := by
  refine ⟨?_, ?_, ?_⟩
  · intro env pfx
    apply String.ext
    simp [Command.usageBody, sampleCommand, String.data_append]
  · decide
  · decide

/-- When a guard is the first to fail, the outcome of `execute` is what that guard does. -/
theorem execute_of_first_failure (env : Env) (cmd : Command) (cache : Cache) (now later : Int)
    (message : Message) (args : List String) (invoke pfx : String) (check : Check)
    (h : Check.order.find? (cmd.fails cache now message args) = some check) :
    (cmd.execute env cache now later message args invoke pfx).1
      = cmd.rejection env cache now message invoke pfx check := by
  rw [execute_fst_eq_executeSpec]
  simp only [Command.executeSpec, h]

/-- C11 (amended): when the user-permission guard is the one that rejects, the reply is built
from the whole list of permissions the command requires of the member, and when the
bot-permission guard is the one that rejects, from the whole list it requires of the bot; which
of them are held does not enter the text. -/
theorem permission_reply_names_all_required_permissions (env : Env) (cmd : Command)
    (cache : Cache) (now later : Int) (message : Message) (args : List String)
    (invoke pfx : String) :
    (Check.order.find? (cmd.fails cache now message args) = some .userPermissions →
        (cmd.execute env cache now later message args invoke pfx).1
          = .reply ("You need " ++ parsePermissions env cmd.command.userPermissions
              ++ " for this command"))
      ∧ (Check.order.find? (cmd.fails cache now message args) = some .botPermissions →
        (cmd.execute env cache now later message args invoke pfx).1
          = .reply ("I need " ++ parsePermissions env cmd.command.botPermissions
              ++ " for this command")) := by
  constructor
  · intro h
    rw [execute_of_first_failure env cmd cache now later message args invoke pfx _ h]
    rfl
  · intro h
    rw [execute_of_first_failure env cmd cache now later message args invoke pfx _ h]
    rfl

/-- C11, counterexample: the command requires `BAN_MEMBERS` and `KICK_MEMBERS`, the member holds
`KICK_MEMBERS` and lacks only `BAN_MEMBERS`, and the reply names both, not the missing one alone. -/
theorem permission_reply_names_a_held_permission :
    ((sampleMessage "7" ["SEND_MESSAGES"] ["KICK_MEMBERS"]).channel.permissionsFor
        (sampleMessage "7" ["SEND_MESSAGES"] ["KICK_MEMBERS"]).member).has ["KICK_MEMBERS"] = true
      ∧ missingPermissions
          ((sampleMessage "7" ["SEND_MESSAGES"] ["KICK_MEMBERS"]).channel.permissionsFor
            (sampleMessage "7" ["SEND_MESSAGES"] ["KICK_MEMBERS"]).member)
          moderationInfo.userPermissions = ["BAN_MEMBERS"]
      ∧ ((sampleCommand 0 moderationInfo).execute sampleEnv [] 0 0
          (sampleMessage "7" ["SEND_MESSAGES"] ["KICK_MEMBERS"]) [] "list" "!").1
        = .reply "You need `BAN_MEMBERS`, `KICK_MEMBERS`permissions for this command"
      ∧ ((sampleCommand 0 moderationInfo).execute sampleEnv [] 0 0
          (sampleMessage "7" ["SEND_MESSAGES"] ["KICK_MEMBERS"]) [] "list" "!").1
        ≠ .reply ("You need " ++ parsePermissions sampleEnv ["BAN_MEMBERS"] ++ " for this command") := by
  have hex : (sampleCommand 0 moderationInfo).execute sampleEnv [] 0 0
      (sampleMessage "7" ["SEND_MESSAGES"] ["KICK_MEMBERS"]) [] "list" "!"
      = (sampleCommand 0 moderationInfo).executeGuards sampleEnv [] 0
      (sampleMessage "7" ["SEND_MESSAGES"] ["KICK_MEMBERS"]) [] "list" "!" := by
    simp [Command.execute, sampleCommand]
  rw [hex]
  refine ⟨by decide, by decide, by decide, by decide⟩

/-- C11, witness: the member holding `KICK_MEMBERS` of the two required permissions. -/
theorem permission_reply_names_all_required_permissions_witness :
    ((sampleCommand 0 moderationInfo).execute sampleEnv [] 0 0
        (sampleMessage "7" ["SEND_MESSAGES"] ["KICK_MEMBERS"]) [] "list" "!").1
      = .reply ("You need " ++ parsePermissions sampleEnv ["BAN_MEMBERS", "KICK_MEMBERS"]
          ++ " for this command") :=
  (permission_reply_names_all_required_permissions sampleEnv (sampleCommand 0 moderationInfo) [] 0 0
    (sampleMessage "7" ["SEND_MESSAGES"] ["KICK_MEMBERS"]) [] "list" "!").1
    (by simp [Check.order, List.find?, Command.fails, sampleCommand, sampleMessage, sampleInfo,
      moderationInfo, JsValue.strictNeString])

/-- C12: on a non-empty list, `parsePermissions` is the entries of the lookup table for the
permissions, each between backticks, in list order and joined by a comma and a blank, followed
by `permission` for a list of one and by `permissions` for a longer list. -/
theorem parsePermissions_renders_each_permission (env : Env) (perms : List String)
    (h : perms ≠ []) :
    parsePermissions env perms
      = ", ".intercalate (perms.map fun perm => "`" ++ env.permissions perm ++ "`")
          ++ (if perms.length = 1 then "permission" else "permissions") := by
  have hs : "permission" ++ "s" = "permissions" := by decide
  have he : "permission" ++ "" = "permission" := by decide
  have hlen : 0 < perms.length := List.length_pos.mpr h
  by_cases h1 : perms.length > 1
  · have h2 : perms.length ≠ 1 := by omega
    simp only [parsePermissions, h1, h2, if_true, if_false, hs]
  · have h2 : perms.length = 1 := by omega
    simp only [parsePermissions, h1, if_false, he]
    simp only [h2, if_true]

/-- C12, witness: a list of one and a list of two permissions. -/
theorem parsePermissions_renders_each_permission_witness :
    parsePermissions sampleEnv ["BAN_MEMBERS"] = "`BAN_MEMBERS`permission"
      ∧ parsePermissions sampleEnv ["BAN_MEMBERS", "KICK_MEMBERS"]
        = "`BAN_MEMBERS`, `KICK_MEMBERS`permissions" :=
  ⟨(parsePermissions_renders_each_permission sampleEnv ["BAN_MEMBERS"] (by simp)).trans (by decide),
    (parsePermissions_renders_each_permission sampleEnv ["BAN_MEMBERS", "KICK_MEMBERS"]
      (by simp)).trans (by decide)⟩

/-- The bot-owner-only text is not the guild-owner-only text. -/
theorem guildOwnerText_ne_botOwner (name : String) :
    "The `" ++ name ++ "` command can only be used by the bot owner."
      ≠ "The `" ++ name ++ "` command can only be used by the guild owner." := by
  intro h
  have h2 := congrArg String.data h
  simp [String.data_append] at h2

/-- The NSFW-channel text is not the guild-owner-only text. -/
theorem guildOwnerText_ne_nsfw (name : String) :
    "The `" ++ name ++ "` command can only be used in NSFW Channel."
      ≠ "The `" ++ name ++ "` command can only be used by the guild owner." := by
  intro h
  have h2 := congrArg String.data h
  simp [String.data_append] at h2

/-- A missing-user-permissions text is not the guild-owner-only text. -/
theorem guildOwnerText_ne_userPermissions (name s : String) :
    "You need " ++ s ++ " for this command"
      ≠ "The `" ++ name ++ "` command can only be used by the guild owner." := by
  intro h
  have h2 := congrArg String.data h
  simp [String.data_append] at h2

/-- A missing-bot-permissions text is not the guild-owner-only text. -/
theorem guildOwnerText_ne_botPermissions (name s : String) :
    "I need " ++ s ++ " for this command"
      ≠ "The `" ++ name ++ "` command can only be used by the guild owner." := by
  intro h
  have h2 := congrArg String.data h
  simp [String.data_append] at h2

/-- C13: for an invocation that passes the cooldown, send-capability and argument-count guards,
`execute` sends the guild-owner-only reply exactly when `guildOwnerOnly` is set and the id of the
member differs from `guild.ownerId`. -/
theorem guildOwnerOnly_rejects_iff_flag_and_not_owner (env : Env) (cmd : Command)
    (cache : Cache) (now later : Int) (message : Message) (args : List String)
    (invoke pfx : String)
    (h1 : cmd.fails cache now message args .cooldown = false)
    (h2 : cmd.fails cache now message args .sendCapability = false)
    (h3 : cmd.fails cache now message args .argumentCount = false) :
    (cmd.execute env cache now later message args invoke pfx).1
        = .reply ("The `" ++ cmd.name ++ "` command can only be used by the guild owner.")
      ↔ (cmd.command.guildOwnerOnly = true ∧ message.guild.ownerId ≠ message.member.id) := by
  have hf : cmd.fails cache now message args .guildOwnerOnly = true
      ↔ (cmd.command.guildOwnerOnly = true ∧ message.guild.ownerId ≠ message.member.id) := by
    simp [Command.fails]
  rw [← hf, execute_fst_eq_executeSpec]
  simp only [Command.executeSpec, Check.order, List.find?, h1, h2, h3]
  cases h4 : cmd.fails cache now message args .guildOwnerOnly
  · have hb := guildOwnerText_ne_botOwner cmd.name
    have hn := guildOwnerText_ne_nsfw cmd.name
    have hu := guildOwnerText_ne_userPermissions cmd.name
    have hp := guildOwnerText_ne_botPermissions cmd.name
    cases cmd.fails cache now message args .botOwnerOnly
    · cases cmd.fails cache now message args .nsfwChannel
      · cases cmd.fails cache now message args .userPermissions
        · cases cmd.fails cache now message args .botPermissions
          · cases cmd.messageRun message args invoke pfx <;> simp
          · simp [Command.rejection, hp]
        · simp [Command.rejection, missingUserPermissionsText, hu]
      · simp [Command.rejection, hn]
    · simp [Command.rejection, hb]
  · simp [Command.rejection]

/-- C13, witness: member `7` calls a guild-owner-only command in the guild owned by `1`. -/
theorem guildOwnerOnly_rejects_iff_flag_and_not_owner_witness :
    ((sampleCommand 0 { sampleInfo with guildOwnerOnly := true }).execute sampleEnv [] 0 0
        (sampleMessage "7" ["SEND_MESSAGES"] []) [] "list" "!").1
      = .reply ("The `" ++ (sampleCommand 0 { sampleInfo with guildOwnerOnly := true }).name
          ++ "` command can only be used by the guild owner.") :=
  (guildOwnerOnly_rejects_iff_flag_and_not_owner sampleEnv
    (sampleCommand 0 { sampleInfo with guildOwnerOnly := true }) [] 0 0
    (sampleMessage "7" ["SEND_MESSAGES"] []) [] "list" "!"
    (by simp [Command.fails, sampleCommand])
    (by simp [Command.fails, sampleMessage])
    (by simp [Command.fails, sampleCommand, sampleInfo])).mpr
    ⟨rfl, by decide⟩

/-- C14: when the cooldown is not negative and no stored timestamp is later than the current
time, the value returned by `getRemainingCooldown` lies between 0 and the cooldown; and when the
time since the stored timestamp exceeds the cooldown, the read returns 0, the key is absent
afterwards and every other key is as it was. -/
theorem getRemainingCooldown_bounded_and_self_cleaning (cmd : Command) (cache : Cache)
    (now : Int) (memberId : String)
    (hd : 0 ≤ cmd.cooldown)
    (hts : ∀ key t, Cache.get cache key = some t → t ≤ now) :
    0 ≤ (cmd.getRemainingCooldown cache now memberId).1
      ∧ (cmd.getRemainingCooldown cache now memberId).1 ≤ cmd.cooldown
      ∧ ∀ last, Cache.get cache (cmd.cooldownKey memberId) = some last →
          ((now - last : Int) : ℚ) * 0.001 > cmd.cooldown →
          (cmd.getRemainingCooldown cache now memberId).1 = 0
            ∧ Cache.get (cmd.getRemainingCooldown cache now memberId).2
                (cmd.cooldownKey memberId) = none
            ∧ ∀ other, other ≠ cmd.cooldownKey memberId →
                Cache.get (cmd.getRemainingCooldown cache now memberId).2 other
                  = Cache.get cache other := by
  cases hg : Cache.get cache (cmd.cooldownKey memberId) with
  | none =>
    rw [getRemainingCooldown_of_get_none cmd cache now memberId hg]
    refine ⟨le_refl _, hd, ?_⟩
    intro last hlast
    cases hlast
  | some last =>
    rw [getRemainingCooldown_of_get_some cmd cache now last memberId hg]
    have hle : last ≤ now := hts _ _ hg
    have hnn : (0 : ℚ) ≤ ((now - last : Int) : ℚ) * 0.001 := by
      have h0 : (0 : ℚ) ≤ ((now - last : Int) : ℚ) := by
        exact_mod_cast Int.sub_nonneg_of_le hle
      exact mul_nonneg h0 (by norm_num)
    by_cases hst : ((now - last : Int) : ℚ) * 0.001 > cmd.cooldown
    · rw [if_pos hst]
      refine ⟨le_refl _, hd, ?_⟩
      intro last2 _ _
      exact ⟨rfl, Cache.get_delete_self _ _, fun other ho => Cache.get_delete_other _ _ _ ho⟩
    · rw [if_neg hst]
      refine ⟨hnn, not_lt.mp hst, ?_⟩
      intro last2 hlast2 hst2
      cases hlast2
      exact absurd hst2 hst

/-- C14, witness: cooldown 10 and an entry 3 seconds old. -/
theorem getRemainingCooldown_bounded_and_self_cleaning_witness :
    0 ≤ ((sampleCommand 10 sampleInfo).getRemainingCooldown [("list|7", 0)] 3000 "7").1
      ∧ ((sampleCommand 10 sampleInfo).getRemainingCooldown [("list|7", 0)] 3000 "7").1 ≤ 10 := by
  have h := getRemainingCooldown_bounded_and_self_cleaning (sampleCommand 10 sampleInfo)
    [("list|7", 0)] 3000 "7" (by norm_num [sampleCommand])
    (by
      intro key t ht
      simp only [Cache.get] at ht
      split at ht
      · cases ht; decide
      · cases ht)
  exact ⟨h.1, h.2.1⟩

/-- C15: the description of the usage embed is the usage body, then the help line exactly when
the command description is not empty, then the cooldown line with the formatted cooldown
exactly when the cooldown is not 0, and nothing more. -/
theorem getUsageEmbed_appends_help_then_cooldown (env : Env) (cmd : Command)
    (pfx invoke title : Option String) :
    (cmd.getUsageEmbed env pfx invoke title).description
      = cmd.usageBody env (pfx.getD env.PREFIX) (invoke.getD cmd.name)
          ++ (if cmd.description ≠ "" then "\n**Help:** " ++ cmd.description else "")
          ++ (if cmd.cooldown ≠ 0 then "\n**Cooldown:** " ++ env.timeformat cmd.cooldown
              else "") := by
  simp only [Command.getUsageEmbed]
  by_cases h1 : cmd.description = "" <;> by_cases h2 : cmd.cooldown = 0 <;>
    simp only [h1, h2, ne_eq, not_true_eq_false, not_false_eq_true, if_true, if_false,
      String.append_empty]

/-- C15, witness: a command with a description and no cooldown. -/
theorem getUsageEmbed_appends_help_then_cooldown_witness :
    ((sampleCommand 0 sampleInfo).getUsageEmbed sampleEnv (some "!") (some "list") none).description
      = "**Usage:**\n```css\n!list <user>```\n**Help:** Lists items" := by
  rw [getUsageEmbed_appends_help_then_cooldown]
  have h0 : ¬ (sampleCommand 0 sampleInfo).cooldown ≠ 0 := by simp [sampleCommand]
  rw [if_neg h0]
  decide

/-- C16: the base class `messageRun` throws its no-`messageRun()`-method error exactly when
`command.enabled`, and returns otherwise; the base class `interactionRun` throws its error
exactly when `slashCommand.enabled`, and returns otherwise; an enabled command without a
`messageRun` of its own ends every invocation that passes all guards in that error. -/
theorem base_run_methods_throw_iff_enabled (env : Env) (cmd : Command) (cache : Cache)
    (now later : Int) (message : Message) (args : List String) (invoke pfx : String) :
    (cmd.messageRunOverride = none →
        (cmd.messageRun message args invoke pfx
            = .error (.error (cmd.className ++ " doesn\x27t have a messageRun() method."))
          ↔ cmd.command.enabled = true)
        ∧ (cmd.messageRun message args invoke pfx = .ok () ↔ cmd.command.enabled = false))
      ∧ (cmd.interactionRun
            = .error (.error (cmd.className ++ " doesn\x27t have a interactionRun() method."))
          ↔ cmd.slashCommand.enabled = true)
      ∧ (cmd.interactionRun = .ok () ↔ cmd.slashCommand.enabled = false)
      ∧ (cmd.messageRunOverride = none → cmd.command.enabled = true →
          (∀ check ∈ Check.order, cmd.fails cache now message args check = false) →
          (cmd.execute env cache now later message args invoke pfx).1
            = .threw (.error (cmd.className ++ " doesn\x27t have a messageRun() method."))) := by
  refine ⟨?_, ?_, ?_, ?_⟩
  · intro hbase
    cases he : cmd.command.enabled <;> simp [Command.messageRun, hbase, he]
  · cases he : cmd.slashCommand.enabled <;> simp [Command.interactionRun, he]
  · cases he : cmd.slashCommand.enabled <;> simp [Command.interactionRun, he]
  · intro hbase he hpass
    have hnone : Check.order.find? (cmd.fails cache now message args) = none := by
      rw [List.find?_eq_none]; intro c hc; simp [hpass c hc]
    rw [execute_fst_eq_executeSpec]
    simp [Command.executeSpec, hnone, Command.messageRun, hbase, he]

/-- C16, witness: the enabled sample command without a `messageRun` of its own. -/
theorem base_run_methods_throw_iff_enabled_witness :
    ((bareCommand 0 sampleInfo).execute sampleEnv [] 0 0
        (sampleMessage "7" ["SEND_MESSAGES"] []) [] "list" "!").1
      = .threw (.error ((bareCommand 0 sampleInfo).className
          ++ " doesn\x27t have a messageRun() method.")) :=
  (base_run_methods_throw_iff_enabled sampleEnv (bareCommand 0 sampleInfo) [] 0 0
    (sampleMessage "7" ["SEND_MESSAGES"] []) [] "list" "!").2.2.2 rfl rfl
    (by
      intro check _
      cases check <;>
        simp [Command.fails, bareCommand, sampleCommand, sampleInfo, sampleMessage])

/-- C17, the code on omitted fields: a command constructed from data that leaves out
`minArgsCount` carries `undefined` there, not 0; the other omitted fields get the documented
defaults. -/
theorem constructor_defaults_except_minArgsCount (client : Option BotClient)
    (data : CommandData) (info : CommandInfoData) (className : String)
    (run : Option MessageRun) (cmd : Command)
    (hnew : Command.new client (.object data) className run = .ok cmd)
    (hinfo : data.command = some info) :
    (info.minArgsCount = none → cmd.command.minArgsCount = none)
      ∧ (data.cooldown = none → cmd.cooldown = 0)
      ∧ (info.usage = none → cmd.command.usage = "")
      ∧ (info.subcommands = none → cmd.command.subcommands = [])
      ∧ (info.aliases = none → cmd.command.aliases = [])
      ∧ (info.botPermissions = none → cmd.command.botPermissions = [])
      ∧ (info.userPermissions = none → cmd.command.userPermissions = [])
      ∧ (info.guildOwnerOnly = none → cmd.command.guildOwnerOnly = false)
      ∧ (info.botOwnerOnly = none → cmd.command.botOwnerOnly = false)
      ∧ (info.nsfw = none → cmd.command.nsfw = false)
      ∧ (info.hidden = none → cmd.command.hidden = false) := by
  simp only [Command.new] at hnew
  repeat' split at hnew
  all_goals cases hnew
  all_goals simp_all

/-- The name `list` is its own lower-casing. -/
theorem toLowerCase_list : toLowerCase "list" = "list" := by
  rw [toLowerCase, String.toLower, String.map_eq]
  decide

/-- The constructor accepts the sample data that leaves out every optional field. -/
theorem new_minimalData (client : BotClient) :
    ∃ cmd, Command.new (some client) (.object minimalData) "ListCommand" none = .ok cmd := by
  simp [Command.new, validateInfo, JsValue.read, JsValue.typeof, minimalData, toLowerCase_list]

/-- C17, witness: the command constructed from the sample data without optional fields has an
undefined `minArgsCount`. -/
theorem constructor_defaults_except_minArgsCount_witness :
    ∃ cmd, Command.new (some { config := { OWNER_IDS := .object [] } }) (.object minimalData)
        "ListCommand" none = .ok cmd
      ∧ cmd.command.minArgsCount = none := by
  obtain ⟨cmd, hcmd⟩ := new_minimalData { config := { OWNER_IDS := .object [] } }
  exact ⟨cmd, hcmd,
    (constructor_defaults_except_minArgsCount _ minimalData _ _ _ cmd hcmd rfl).1 rfl⟩

/-- C18: when no guard fails and `messageRun` throws, `execute` ends in that error, the cache it
leaves is the one the cooldown guard left, and every entry of it was there before with the same
timestamp. -/
theorem messageRun_failure_propagates_without_cooldown (env : Env) (cmd : Command)
    (cache : Cache) (now later : Int) (message : Message) (args : List String)
    (invoke pfx : String) (e : JsError)
    (hpass : ∀ check ∈ Check.order, cmd.fails cache now message args check = false)
    (herr : cmd.messageRun message args invoke pfx = .error e) :
    (cmd.execute env cache now later message args invoke pfx).1 = .threw e
      ∧ (cmd.execute env cache now later message args invoke pfx).2
          = (if cmd.cooldown > 0 then (cmd.getRemainingCooldown cache now message.member.id).2
              else cache)
      ∧ ∀ key v,
          Cache.get (cmd.execute env cache now later message args invoke pfx).2 key = some v →
          Cache.get cache key = some v := by
  have hnone : Check.order.find? (cmd.fails cache now message args) = none := by
    rw [List.find?_eq_none]; intro c hc; simp [hpass c hc]
  have hfst : (cmd.execute env cache now later message args invoke pfx).1 = .threw e := by
    rw [execute_fst_eq_executeSpec]
    simp only [Command.executeSpec, hnone, herr]
  have hne : (cmd.execute env cache now later message args invoke pfx).1 ≠ .completed := by
    rw [hfst]; simp
  refine ⟨hfst, ?_, ?_⟩
  · have hc : cmd.fails cache now message args .cooldown = false :=
      hpass .cooldown (by simp [Check.order])
    rw [execute_of_cooldown_passes env cmd cache now later message args invoke pfx hc] at hne ⊢
    rw [executeGuards_snd, if_neg hne]
  · intro key v h
    rcases execute_snd_sub env cmd cache now later message args invoke pfx key v h with h1 | h1
    · exact h1
    · exact absurd h1.1 hne

/-- C18, witness: the base class `messageRun` of an enabled command throws, and the cache is as
it was. -/
theorem messageRun_failure_propagates_without_cooldown_witness :
    (bareCommand 10 sampleInfo).execute sampleEnv [("list|8", 0)] 3000 4000
        (sampleMessage "7" ["SEND_MESSAGES"] []) [] "list" "!"
      = (.threw (.error ("ListCommand" ++ " doesn\x27t have a messageRun() method.")),
          [("list|8", 0)]) := by
  have hk : ("list|8" = "list|7") = False := eq_false (by decide)
  have h := messageRun_failure_propagates_without_cooldown sampleEnv (bareCommand 10 sampleInfo)
    [("list|8", 0)] 3000 4000 (sampleMessage "7" ["SEND_MESSAGES"] []) [] "list" "!"
    (.error ("ListCommand" ++ " doesn\x27t have a messageRun() method."))
    (by
      intro check _
      cases check <;>
        simp [Command.fails, bareCommand, sampleCommand, sampleInfo, sampleMessage,
          Command.getRemainingCooldown, Cache.has, Cache.get, sample_key, hk])
    (by simp [Command.messageRun, bareCommand, sampleCommand, sampleInfo])
  have h2 := h.2.1
  simp only [Command.getRemainingCooldown, bareCommand, sampleCommand, sampleMessage, Cache.has,
    Cache.get, sample_key, hk, if_false, Option.isSome_none] at h2
  exact Prod.ext h.1 (by simpa using h2)

/-- Two lists split at a separator that occurs in neither tail agree part by part. -/
theorem append_sep_inj (sep : Char) (xs ys xs2 ys2 : List Char)
    (hy : sep ∉ ys) (hy2 : sep ∉ ys2) (h : xs ++ sep :: ys = xs2 ++ sep :: ys2) :
    xs = xs2 ∧ ys = ys2 := by
  rcases List.append_eq_append_iff.mp h with ⟨as, h1, h2⟩ | ⟨as, h1, h2⟩
  · cases as with
    | nil =>
      simp only [List.nil_append, List.cons.injEq, true_and] at h2
      simp only [List.append_nil] at h1
      exact ⟨h1.symm, h2⟩
    | cons c rest =>
      simp only [List.cons_append, List.cons.injEq] at h2
      exact absurd (h2.2 ▸ (by simp : sep ∈ rest ++ sep :: ys2)) hy
  · cases as with
    | nil =>
      simp only [List.nil_append, List.cons.injEq, true_and] at h2
      simp only [List.append_nil] at h1
      exact ⟨h1, h2.symm⟩
    | cons c rest =>
      simp only [List.cons_append, List.cons.injEq] at h2
      exact absurd (h2.2 ▸ (by simp : sep ∈ rest ++ sep :: ys)) hy2

/-- The cache key determines the command name and the member id when no member id contains
the separator. -/
theorem cooldownKey_inj (n n2 a a2 : String) (ha : '|' ∉ a.data) (ha2 : '|' ∉ a2.data)
    (h : n ++ "|" ++ a = n2 ++ "|" ++ a2) : n = n2 ∧ a = a2 := by
  have hd := congrArg String.data h
  simp only [String.data_append] at hd
  rw [List.append_assoc, List.append_assoc] at hd
  have := append_sep_inj '|' n.data a.data n2.data a2.data ha ha2 hd
  exact ⟨String.ext this.1, String.ext this.2⟩

/-- The value returned by `getRemainingCooldown` depends on the cache only through the entry of
its key. -/
theorem getRemainingCooldown_fst_congr (cmd : Command) (c1 c2 : Cache) (now : Int)
    (memberId : String)
    (h : Cache.get c1 (cmd.cooldownKey memberId) = Cache.get c2 (cmd.cooldownKey memberId)) :
    (cmd.getRemainingCooldown c1 now memberId).1 = (cmd.getRemainingCooldown c2 now memberId).1 := by
  cases hg : Cache.get c2 (cmd.cooldownKey memberId) with
  | none =>
    rw [getRemainingCooldown_of_get_none cmd c2 now memberId hg,
      getRemainingCooldown_of_get_none cmd c1 now memberId (h.trans hg)]
  | some last =>
    rw [getRemainingCooldown_of_get_some cmd c2 now last memberId hg,
      getRemainingCooldown_of_get_some cmd c1 now last memberId (h.trans hg)]
    split <;> rfl

/-- C19: for member ids without the separator `|`, equal cache keys come from equal command
names and equal member ids; and `applyCooldown` for one command and member leaves the value
returned by `getRemainingCooldown` for every other pair of command name and member as it was. -/
theorem cooldowns_isolated_per_command_and_actor (cmd cmd2 : Command) (a a2 : String)
    (ha : '|' ∉ a.data) (ha2 : '|' ∉ a2.data) :
    (cmd.name ++ "|" ++ a = cmd2.name ++ "|" ++ a2 → cmd.name = cmd2.name ∧ a = a2)
      ∧ ((cmd.name, a) ≠ (cmd2.name, a2) →
          ∀ (cache : Cache) (applied now : Int),
            (cmd2.getRemainingCooldown (cmd.applyCooldown cache applied a) now a2).1
              = (cmd2.getRemainingCooldown cache now a2).1) := by
  refine ⟨cooldownKey_inj cmd.name cmd2.name a a2 ha ha2, ?_⟩
  intro hne cache applied now
  apply getRemainingCooldown_fst_congr
  have hkey : cmd2.cooldownKey a2 ≠ cmd.cooldownKey a := by
    intro hk
    have := cooldownKey_inj cmd2.name cmd.name a2 a ha2 ha hk
    exact hne (by rw [this.1, this.2])
  exact Cache.get_set_other _ _ _ _ hkey

/-- C19, witness: recording a use by member `7` leaves the value read for member `8`. -/
theorem cooldowns_isolated_per_command_and_actor_witness :
    ((sampleCommand 10 sampleInfo).getRemainingCooldown
        ((sampleCommand 10 sampleInfo).applyCooldown [("list|8", 0)] 5000 "7") 6000 "8").1
      = ((sampleCommand 10 sampleInfo).getRemainingCooldown [("list|8", 0)] 6000 "8").1 :=
  (cooldowns_isolated_per_command_and_actor (sampleCommand 10 sampleInfo)
    (sampleCommand 10 sampleInfo) "7" "8" (by decide) (by decide)).2
    (by simp [sampleCommand]) [("list|8", 0)] 5000 6000

/-- C20: when `validateInfo` accepts the client and the data and `data.command` or
`data.slashCommand` is absent, the constructor throws the error of reading a property of the
absent object (`aliases` of `data.command`, else `enabled` of `data.slashCommand`), so it
constructs no command. -/
theorem constructor_fails_without_command_or_slashCommand (client : Option BotClient)
    (data : CommandData) (className : String) (run : Option MessageRun)
    (hvalid : validateInfo client (.object data) = .ok ())
    (habsent : data.command = none ∨ data.slashCommand = none) :
    (data.command = none →
        Command.new client (.object data) className run = .error (.cannotRead "aliases"))
      ∧ (data.command ≠ none →
        Command.new client (.object data) className run = .error (.cannotRead "enabled"))
      ∧ ∀ cmd, Command.new client (.object data) className run ≠ .ok cmd := by
  have hclient : ∃ c, client = some c := by
    cases client with
    | none => simp [validateInfo] at hvalid
    | some c => exact ⟨c, rfl⟩
  obtain ⟨c, rfl⟩ := hclient
  have h1 : data.command = none →
      Command.new (some c) (.object data) className run = .error (.cannotRead "aliases") := by
    intro hc
    simp [Command.new, hvalid, hc]
  have h2 : data.command ≠ none →
      Command.new (some c) (.object data) className run = .error (.cannotRead "enabled") := by
    intro hc
    have hs : data.slashCommand = none := by
      rcases habsent with h | h
      · exact absurd h hc
      · exact h
    obtain ⟨dc, hdc⟩ := Option.ne_none_iff_exists'.mp hc
    simp [Command.new, hvalid, hdc, hs]
  refine ⟨h1, h2, ?_⟩
  intro cmd hcmd
  by_cases hc : data.command = none
  · rw [h1 hc] at hcmd; cases hcmd
  · rw [h2 hc] at hcmd; cases hcmd

/-- C20, witness: data with a name and a description alone passes `validateInfo` and the
constructor throws. -/
theorem constructor_fails_without_command_or_slashCommand_witness :
    validateInfo (some { config := { OWNER_IDS := .object [] } }) (.object nameOnlyData) = .ok ()
      ∧ Command.new (some { config := { OWNER_IDS := .object [] } }) (.object nameOnlyData)
          "ListCommand" none = .error (.cannotRead "aliases") := by
  have hv : validateInfo (some { config := { OWNER_IDS := .object [] } }) (.object nameOnlyData)
      = .ok () := by
    simp [validateInfo, JsValue.read, JsValue.typeof, nameOnlyData, toLowerCase_list]
  exact ⟨hv, (constructor_fails_without_command_or_slashCommand _ nameOnlyData "ListCommand" none
    hv (Or.inl rfl)).1 rfl⟩

end DiscordBot
